import Mathlib

/-!
# Buoyant mesh component: volume calibration and force application

A shallow embedding of `BuoyantMeshComponent.cpp` (BuoyancyPlugin).

* `TArray` is a `List`; `operator[]` is `arrayAt`, which fails (`none`) on an index outside
  `0 .. Num()-1`, as the engine's range check does. Loop counters are natural numbers, stored
  vertex indices are integers.
* The `float` values of the volume computation (`SignedVolumeOfTriangle`, `MeshVolume`) are
  elements of an arbitrary linearly ordered field: the arithmetic is exact, without rounding.
* The `float` values of the force pipeline are `FFloat`: a finite rational, an infinity or NaN,
  so that the validity test of `ApplyMeshForce` can be stated. Finite arithmetic is exact.
* The functions of `FBuoyantMeshTriangle` and `FBuoyantMeshSubtriangle`, whose bodies are in
  other translation units, and the engine services (water height, body velocity) are fields
  of `FEnvironment`: every statement about `ApplyMeshForces` holds for all of them, unless it
  names `SpecModel.stillWater`, where they are fixed as the spec describes them, the square
  root being a parameter.
* The force sink `UpdatedComponent->AddForceAtLocation` is the list of the calls made to it.
  `UpdatedComponent` itself is not a field: `Initialize` makes it non-null, and whether it is
  valid and simulates physics is part of what the engine reports during a tick (`FWorld`).
* Debug drawing, tick-order setup and the mass override of `SetMassProperties` write neither
  the fields of the component that are modelled nor the sink, and are left out.
-/

set_option linter.unusedSectionVars false
set_option linter.unusedVariables false

namespace Buoyancy

/-! ## Engine containers and meshes -/

/-- Engine vector `FVector`, generic in the scalar type. -/
structure FVector (α : Type) where
  X : α
  Y : α
  Z : α
deriving DecidableEq

/-- Triangle mesh `FTriangleMesh`: vertex positions and the flat list of vertex indices. -/
structure FTriangleMesh (α : Type) where
  Vertices : List (FVector α)
  TriangleVertexIndices : List Int

/-- Checked element access of `TArray` with an `int32` index. -/
def arrayAt {β : Type} (xs : List β) (Index : Int) : Option β :=
  if 0 ≤ Index ∧ Index < (xs.length : Int) then xs[Index.toNat]? else none

/-- Static mesh asset: the CPU-access flag and the sections of LOD 0, each with the vertices
and triangle indices `GetSectionFromStaticMesh` returns for it. -/
structure UStaticMesh (α : Type) where
  bAllowCPUAccess : Bool
  Sections : List (List (FVector α) × List Int)

/-- Static mesh component: its mesh asset (may be null) and the position map of
`GetComponentTransform()`. -/
structure UStaticMeshComponent (α : Type) where
  StaticMesh : Option (UStaticMesh α)
  TransformPosition : FVector α → FVector α

namespace TMeshUtilities

/-- Loop body of `GetTriangleMeshes`: append one section to the running totals
`(TotalSectionsVertices, TotalSectionsTriangles)`. -/
def appendSection {α : Type} (Total : List (FVector α) × List Int)
    (Current : List (FVector α) × List Int) : List (FVector α) × List Int :=
  let TotalSectionsTriangles :=
    Total.2 ++ Current.2.map (fun Triangle => Triangle + (Total.1.length : Int))
  let TotalSectionsVertices := Total.1 ++ Current.1
  (TotalSectionsVertices, TotalSectionsTriangles)

/-- `TMeshUtilities::GetTriangleMeshes`. `none` is a null dereference of the mesh asset. -/
def GetTriangleMeshes {α : Type} (WITH_EDITOR : Bool)
    (StaticMeshComponent : Option (UStaticMeshComponent α)) :
    Option (List (FTriangleMesh α)) :=
  match StaticMeshComponent with
  | none => some []
  | some Component =>
    match Component.StaticMesh with
    | none => none
    | some Mesh =>
      if !WITH_EDITOR && !Mesh.bAllowCPUAccess then some []
      else
        let Total := Mesh.Sections.foldl appendSection ([], [])
        some [⟨Total.1, Total.2⟩]

end TMeshUtilities

/-! ## Volume calibration -/

namespace TMathUtilities

variable {α : Type} [LinearOrderedField α]

/-- `TMathUtilities::SignedVolumeOfTriangle`. -/
def SignedVolumeOfTriangle (p1 p2 p3 : FVector α) : α :=
  let v321 := p3.X * p2.Y * p1.Z
  let v231 := p2.X * p3.Y * p1.Z
  let v312 := p3.X * p1.Y * p2.Z
  let v132 := p1.X * p3.Y * p2.Z
  let v213 := p2.X * p1.Y * p3.Z
  let v123 := p1.X * p2.Y * p3.Z
  (1 / 6) * (-v321 + v231 + v312 - v132 - v213 + v123)

/-- The vertex `TriangleMesh.Vertices[TriangleMesh.TriangleVertexIndices[k]]`. -/
def vertexOfIndex (TriangleMesh : FTriangleMesh α) (k : Nat) : Option (FVector α) :=
  (arrayAt TriangleMesh.TriangleVertexIndices (k : Int)).bind (arrayAt TriangleMesh.Vertices)

/-- One iteration of the inner loop of `MeshVolume`: triangle `i` of `TriangleMesh`. -/
def addTriangleVolume (StaticMeshComponent : Option (UStaticMeshComponent α))
    (TriangleMesh : FTriangleMesh α) (Volume : α) (i : Nat) : Option α :=
  (vertexOfIndex TriangleMesh (i * 3 + 0)).bind fun Vertex1 =>
  (vertexOfIndex TriangleMesh (i * 3 + 2)).bind fun Vertex2 =>
  (vertexOfIndex TriangleMesh (i * 3 + 1)).bind fun Vertex3 =>
  StaticMeshComponent.bind fun Component =>
  let WorldVertex1 := Component.TransformPosition Vertex1
  let WorldVertex2 := Component.TransformPosition Vertex2
  let WorldVertex3 := Component.TransformPosition Vertex3
  some (Volume + SignedVolumeOfTriangle WorldVertex1 WorldVertex2 WorldVertex3)

/-- Inner loop of `MeshVolume` over the `Num() / 3` triangles of one mesh. -/
def addMeshVolume (StaticMeshComponent : Option (UStaticMeshComponent α))
    (Volume : α) (TriangleMesh : FTriangleMesh α) : Option α :=
  let TriangleCount := TriangleMesh.TriangleVertexIndices.length / 3
  (List.range TriangleCount).foldlM (addTriangleVolume StaticMeshComponent TriangleMesh) Volume

/-- `TMathUtilities::MeshVolume`. -/
def MeshVolume (WITH_EDITOR : Bool) (StaticMeshComponent : Option (UStaticMeshComponent α)) :
    Option α :=
  (TMeshUtilities.GetTriangleMeshes WITH_EDITOR StaticMeshComponent).bind fun Meshes =>
  (Meshes.foldlM (addMeshVolume StaticMeshComponent) (0 : α)).bind fun Volume =>
  some |Volume|

end TMathUtilities

/-! ## Force pipeline -/

/-- Value of a `float` in the force pipeline: a finite number, an infinity or NaN. -/
inductive FFloat where
  | fin (q : ℚ)
  | pinf
  | ninf
  | nan
deriving DecidableEq

namespace FFloat

/-- `FMath::IsFinite`. -/
def IsFinite : FFloat → Bool
  | fin _ => true
  | _ => false

/-- Unary minus. -/
def neg : FFloat → FFloat
  | fin q => fin (-q)
  | pinf => ninf
  | ninf => pinf
  | nan => nan

/-- Addition: exact on finite values, NaN for NaN operands and for opposite infinities. -/
def add : FFloat → FFloat → FFloat
  | fin a, fin b => fin (a + b)
  | nan, _ => nan
  | _, nan => nan
  | pinf, ninf => nan
  | ninf, pinf => nan
  | pinf, _ => pinf
  | _, pinf => pinf
  | ninf, _ => ninf
  | _, ninf => ninf

/-- Subtraction. -/
def sub (a b : FFloat) : FFloat := add a (neg b)

/-- `FMath::Abs`. -/
def abs : FFloat → FFloat
  | fin q => fin |q|
  | pinf => pinf
  | ninf => pinf
  | nan => nan

/-- Comparison `a <= b`; false whenever an operand is NaN. -/
def le : FFloat → FFloat → Bool
  | fin a, fin b => decide (a ≤ b)
  | nan, _ => false
  | _, nan => false
  | ninf, _ => true
  | _, pinf => true
  | _, _ => false

end FFloat

/-- Vector of the force pipeline. -/
abbrev FVec := FVector FFloat

/-- `FVector::ZeroVector`. -/
def ZeroVector : FVec := ⟨FFloat.fin 0, FFloat.fin 0, FFloat.fin 0⟩

/-- Component-wise addition, `operator+=` of `FVector`. -/
def FVector.add (a b : FVec) : FVec := ⟨a.X.add b.X, a.Y.add b.Y, a.Z.add b.Z⟩

/-- Modelled from the spec: the engine's `SMALL_NUMBER`, the tolerance ε of "If A ≤ ε". -/
def SMALL_NUMBER : ℚ := 1 / 100000000

/-- Modelled from the spec: the engine's `KINDA_SMALL_NUMBER`, the default tolerance of
`FVector::IsNearlyZero`. -/
def KINDA_SMALL_NUMBER : ℚ := 1 / 10000

/-- Modelled from the spec: the engine's `FMath::IsNearlyZero(Value)`, true when
`Abs(Value) <= SMALL_NUMBER` ("If A ≤ ε"). -/
def FMath.IsNearlyZero (Value : FFloat) : Bool :=
  Value.abs.le (FFloat.fin SMALL_NUMBER)

/-- Modelled from the spec: the engine's `FVector::IsNearlyZero()`, true when every component
is within `KINDA_SMALL_NUMBER` of zero ("zero-length force vectors"). -/
def FVector.IsNearlyZero (V : FVec) : Bool :=
  V.X.abs.le (FFloat.fin KINDA_SMALL_NUMBER) && V.Y.abs.le (FFloat.fin KINDA_SMALL_NUMBER) &&
    V.Z.abs.le (FFloat.fin KINDA_SMALL_NUMBER)

/-- Modelled from the spec: the engine's `FVector::ContainsNaN()`, true when a component is not
finite ("NaN/Inf force"). -/
def FVector.ContainsNaN (V : FVec) : Bool :=
  !V.X.IsFinite || !V.Y.IsFinite || !V.Z.IsFinite

/-- Vertex `FBuoyantMeshVertex`: world position and height above the water. -/
structure FBuoyantMeshVertex where
  Position : FVec
  Height : FFloat
deriving DecidableEq

/-- Sub-triangle `FBuoyantMeshSubtriangle`. -/
structure FBuoyantMeshSubtriangle where
  A : FVec
  B : FVec
  C : FVec
deriving DecidableEq

/-- Triangle `FBuoyantMeshTriangle` (BuoyantMeshTriangle.h). -/
structure FBuoyantMeshTriangle where
  Normal : FVec
  H : FBuoyantMeshVertex
  M : FBuoyantMeshVertex
  L : FBuoyantMeshVertex

/-- Force `UBuoyantMeshComponent::FForce`: vector and application point. -/
structure FForce where
  Vector : FVec
  Point : FVec
deriving DecidableEq

/-- One call `UpdatedComponent->AddForceAtLocation(Force, Location)`. -/
structure FAddForceAtLocation where
  Force : FVec
  Location : FVec
deriving DecidableEq

/-- The functions `ApplyMeshForces` calls whose bodies are outside the translation unit:
water queries, triangle clipping, sub-triangle geometry and forces, body velocity. -/
structure FEnvironment where
  GetHeightAtPosition : FVec → FFloat
  GetWaveHeight : FVec → FFloat
  FromClockwiseVertices :
    FBuoyantMeshVertex → FBuoyantMeshVertex → FBuoyantMeshVertex → FBuoyantMeshTriangle
  GetSubmergedPortion : FBuoyantMeshTriangle → List FBuoyantMeshSubtriangle
  GetCenter : FBuoyantMeshSubtriangle → FVec
  GetArea : FBuoyantMeshSubtriangle → FFloat
  GetHydrostaticForce : FFloat → FFloat → FBuoyantMeshVertex → FVec → FFloat → FVec
  GetHydrodynamicForce : FFloat → FVec → FVec → FVec → FFloat → FVec
  GetUnrealWorldVelocityAtPoint : FVec → FVec

/-- What the engine reports to the component during one tick. -/
structure FWorld extends FEnvironment where
  WITH_EDITOR : Bool
  FindOceanManager : Bool
  FindWaterHeightmap : Bool
  GravityZ : FFloat
  UpdatedComponentIsValid : Bool
  UpdatedComponentIsSimulatingPhysics : Bool

/-- Component `UBuoyantMeshComponent`. `OceanManager` and `WaterHeightmap` hold whether the
pointer is valid (`IsValid`). -/
structure UBuoyantMeshComponent extends UStaticMeshComponent FFloat where
  bHasInitialized : Bool
  OceanManager : Bool
  WaterHeightmap : Bool
  bUseWaterPatch : Bool
  TriangleMeshes : List (FTriangleMesh FFloat)
  GravityMagnitude : FFloat
  WaterDensity : FFloat
  bUseStaticForces : Bool
  bUseDynamicForces : Bool
  bVerticalForcesOnly : Bool

namespace UBuoyantMeshComponent

/-- `UBuoyantMeshComponent::GetHeightAboveWater`. -/
def GetHeightAboveWater (E : FEnvironment) (This : UBuoyantMeshComponent) (Position : FVec) :
    FFloat :=
  let WaterHeight :=
    if This.OceanManager then
      if This.bUseWaterPatch && This.WaterHeightmap then E.GetHeightAtPosition Position
      else E.GetWaveHeight Position
    else FFloat.fin 0
  Position.Z.sub WaterHeight

/-- `UBuoyantMeshComponent::GetSubmergedTriangleForce`. -/
def GetSubmergedTriangleForce (E : FEnvironment) (This : UBuoyantMeshComponent)
    (Subtriangle : FBuoyantMeshSubtriangle) (TriangleNormal : FVec) : FForce :=
  let CenterPosition := E.GetCenter Subtriangle
  let CenterVertex : FBuoyantMeshVertex :=
    ⟨CenterPosition, GetHeightAboveWater E This CenterPosition⟩
  let TriangleArea := E.GetArea Subtriangle
  if FMath.IsNearlyZero TriangleArea then ⟨ZeroVector, ZeroVector⟩
  else
    let Force := ZeroVector
    let Force :=
      if This.bUseStaticForces then
        Force.add (E.GetHydrostaticForce This.WaterDensity This.GravityMagnitude CenterVertex
          TriangleNormal TriangleArea)
      else Force
    let Force :=
      if This.bUseDynamicForces then
        Force.add (E.GetHydrodynamicForce This.WaterDensity CenterPosition
          (E.GetUnrealWorldVelocityAtPoint CenterPosition) TriangleNormal TriangleArea)
      else Force
    ⟨Force, CenterPosition⟩

/-- `UBuoyantMeshComponent::ApplyMeshForce`; `Sink` is the list of the calls of
`AddForceAtLocation` made so far. -/
def ApplyMeshForce (This : UBuoyantMeshComponent) (Force : FForce)
    (Sink : List FAddForceAtLocation) : List FAddForceAtLocation :=
  let ForceVector : FVec :=
    if This.bVerticalForcesOnly then ⟨FFloat.fin 0, FFloat.fin 0, Force.Vector.Z⟩
    else Force.Vector
  let bIsValidForce := !ForceVector.IsNearlyZero && !ForceVector.ContainsNaN
  if !bIsValidForce then Sink
  else Sink ++ [⟨ForceVector, Force.Point⟩]

/-- The vertex `BuoyantMeshVertices[TriangleMesh.TriangleVertexIndices[k]]`. -/
def buoyantVertexOfIndex (BuoyantMeshVertices : List FBuoyantMeshVertex)
    (TriangleMesh : FTriangleMesh FFloat) (k : Nat) : Option FBuoyantMeshVertex :=
  (arrayAt TriangleMesh.TriangleVertexIndices (k : Int)).bind (arrayAt BuoyantMeshVertices)

/-- Body of the triangle loop of `ApplyMeshForces`: triangle `i` of `TriangleMesh`. -/
def applyTriangleForces (E : FEnvironment) (This : UBuoyantMeshComponent)
    (BuoyantMeshVertices : List FBuoyantMeshVertex) (TriangleMesh : FTriangleMesh FFloat)
    (Sink : List FAddForceAtLocation) (i : Nat) : Option (List FAddForceAtLocation) :=
  (buoyantVertexOfIndex BuoyantMeshVertices TriangleMesh (i * 3 + 0)).bind fun A =>
  (buoyantVertexOfIndex BuoyantMeshVertices TriangleMesh (i * 3 + 2)).bind fun B =>
  (buoyantVertexOfIndex BuoyantMeshVertices TriangleMesh (i * 3 + 1)).bind fun C =>
  let Triangle := E.FromClockwiseVertices A B C
  let SubTriangles := E.GetSubmergedPortion Triangle
  some (SubTriangles.foldl
    (fun Sink SubTriangle =>
      let SubtriangleForce := GetSubmergedTriangleForce E This SubTriangle Triangle.Normal
      ApplyMeshForce This SubtriangleForce Sink)
    Sink)

/-- Body of the mesh loop of `ApplyMeshForces`. -/
def applyMeshForcesOfMesh (E : FEnvironment) (This : UBuoyantMeshComponent)
    (Sink : List FAddForceAtLocation) (TriangleMesh : FTriangleMesh FFloat) :
    Option (List FAddForceAtLocation) :=
  let BuoyantMeshVertices : List FBuoyantMeshVertex :=
    TriangleMesh.Vertices.map fun Vertex =>
      let WorldVertex := This.TransformPosition Vertex
      ⟨WorldVertex, GetHeightAboveWater E This WorldVertex⟩
  let TriangleCount := TriangleMesh.TriangleVertexIndices.length / 3
  (List.range TriangleCount).foldlM
    (applyTriangleForces E This BuoyantMeshVertices TriangleMesh) Sink

/-- `UBuoyantMeshComponent::ApplyMeshForces`. `none` is a failed range check. -/
def ApplyMeshForces (E : FEnvironment) (This : UBuoyantMeshComponent)
    (Sink : List FAddForceAtLocation) : Option (List FAddForceAtLocation) :=
  This.TriangleMeshes.foldlM (applyMeshForcesOfMesh E This) Sink

/-- `UBuoyantMeshComponent::Initialize`, as far as it writes the component. -/
def Initialize (W : FWorld) (This : UBuoyantMeshComponent) : Option UBuoyantMeshComponent :=
  let OceanManager := if !This.OceanManager then W.FindOceanManager else This.OceanManager
  let WaterHeightmap := W.FindWaterHeightmap
  (TMeshUtilities.GetTriangleMeshes W.WITH_EDITOR (some This.toUStaticMeshComponent)).bind
    fun TriangleMeshes =>
  let GravityMagnitude := W.GravityZ.abs
  some { This with
    OceanManager := OceanManager
    WaterHeightmap := WaterHeightmap
    TriangleMeshes := TriangleMeshes
    GravityMagnitude := GravityMagnitude }

/-- `UBuoyantMeshComponent::TickComponent`: the component and the sink after the tick. -/
def TickComponent (W : FWorld) (This : UBuoyantMeshComponent)
    (Sink : List FAddForceAtLocation) :
    Option (UBuoyantMeshComponent × List FAddForceAtLocation) :=
  if !This.bHasInitialized then
    (Initialize W This).bind fun Initialized =>
    let This := { Initialized with bHasInitialized := true }
    if !W.UpdatedComponentIsValid || !W.UpdatedComponentIsSimulatingPhysics then
      some (This, Sink)
    else
      (ApplyMeshForces W.toFEnvironment This Sink).map fun Sink => (This, Sink)
  else
    (ApplyMeshForces W.toFEnvironment This Sink).map fun Sink => (This, Sink)

/-- A run of ticks, one world report per tick, in order. -/
def TickSequence :
    List FWorld → UBuoyantMeshComponent × List FAddForceAtLocation →
      Option (UBuoyantMeshComponent × List FAddForceAtLocation)
  | [], State => some State
  | W :: Rest, State => (TickComponent W State.1 State.2).bind (TickSequence Rest)

end UBuoyantMeshComponent

/-! ## Vocabulary of the statements -/

section Vocabulary

variable {α : Type} [LinearOrderedField α]

/-- Scalar product of two vectors (`FVector::DotProduct`). -/
def DotProduct (a b : FVector α) : α := a.X * b.X + a.Y * b.Y + a.Z * b.Z

/-- Vector product of two vectors (`FVector::CrossProduct`). -/
def CrossProduct (a b : FVector α) : FVector α :=
  ⟨a.Y * b.Z - a.Z * b.Y, a.Z * b.X - a.X * b.Z, a.X * b.Y - a.Y * b.X⟩

/-- Scalar triple product `p1 . (p2 x p3)`. -/
def tripleProduct (p1 p2 p3 : FVector α) : α := DotProduct p1 (CrossProduct p2 p3)

/-- Every stored index references a vertex of the mesh. -/
def IndicesInRange (TriangleMesh : FTriangleMesh α) : Prop :=
  ∀ k ∈ TriangleMesh.TriangleVertexIndices, 0 ≤ k ∧ k < (TriangleMesh.Vertices.length : Int)

/-- The vertex with index `k`, the origin when `k` references none. -/
def vertexOr0 (Vertices : List (FVector α)) (k : Int) : FVector α :=
  Vertices.getD k.toNat ⟨0, 0, 0⟩

/-- The vertex referenced by position `k` of the index list, the origin when there is none. -/
def cornerOf (TriangleMesh : FTriangleMesh α) (k : Nat) : FVector α :=
  vertexOr0 TriangleMesh.Vertices (TriangleMesh.TriangleVertexIndices.getD k 0)

/-- Index list with the winding of every triangle reversed: the second and third index of each
triple are swapped; a trailing incomplete triple is kept. -/
def reverseWinding : List Int → List Int
  | a :: b :: c :: rest => a :: c :: b :: reverseWinding rest
  | rest => rest

/-- Mesh with the winding of every triangle reversed. -/
def reverseMesh (TriangleMesh : FTriangleMesh α) : FTriangleMesh α :=
  ⟨TriangleMesh.Vertices, reverseWinding TriangleMesh.TriangleVertexIndices⟩

/-- Sum of the signed volumes of the triangles of an index list, read triple by triple, each
triangle taken with the vertex order `0, 2, 1` of the loop of `MeshVolume`. -/
def tripleSum (T : FVector α → FVector α) (Vertices : List (FVector α)) : List Int → α
  | a :: b :: c :: rest =>
    TMathUtilities.SignedVolumeOfTriangle (T (vertexOr0 Vertices a)) (T (vertexOr0 Vertices c))
      (T (vertexOr0 Vertices b)) + tripleSum T Vertices rest
  | _ => 0

/-- The eight corners of the unit cube. -/
def unitCubeVertices : List (FVector α) :=
  [⟨0, 0, 0⟩, ⟨1, 0, 0⟩, ⟨1, 1, 0⟩, ⟨0, 1, 0⟩, ⟨0, 0, 1⟩, ⟨1, 0, 1⟩, ⟨1, 1, 1⟩, ⟨0, 1, 1⟩]

/-- The two triangles of the quadrilateral `a b c e`, split along `a c` or along `b e`,
both wound as the quadrilateral is. -/
def quadTriangles (diagonal : Bool) (a b c e : Int) : List Int :=
  if diagonal then [a, b, c, a, c, e] else [a, b, e, b, c, e]

/-- Twelve triangles of the unit cube, every face wound the same way seen from outside;
`diagonal` chooses how each of the six faces is split. -/
def unitCubeIndices (diagonal : Fin 6 → Bool) : List Int :=
  quadTriangles (diagonal 0) 0 3 2 1 ++ quadTriangles (diagonal 1) 4 5 6 7 ++
    quadTriangles (diagonal 2) 0 1 5 4 ++ quadTriangles (diagonal 3) 3 7 6 2 ++
    quadTriangles (diagonal 4) 0 4 7 3 ++ quadTriangles (diagonal 5) 1 2 6 5

/-- Unit cube mesh: 8 vertices, 12 consistently wound triangles, in either winding. -/
def unitCube (diagonal : Fin 6 → Bool) (reversed : Bool) : FTriangleMesh α :=
  ⟨unitCubeVertices,
    if reversed then reverseWinding (unitCubeIndices diagonal) else unitCubeIndices diagonal⟩

/-- Rigid transform: a rotation (orthonormal rows `r1 r2 r3` of determinant one) followed by a
translation `t`. -/
def IsRigidTransform (T : FVector α → FVector α) : Prop :=
  ∃ r1 r2 r3 t : FVector α,
    DotProduct r1 r1 = 1 ∧ DotProduct r2 r2 = 1 ∧ DotProduct r3 r3 = 1 ∧
    DotProduct r1 r2 = 0 ∧ DotProduct r1 r3 = 0 ∧ DotProduct r2 r3 = 0 ∧
    tripleProduct r1 r2 r3 = 1 ∧
    ∀ v : FVector α,
      T v = ⟨DotProduct r1 v + t.X, DotProduct r2 v + t.Y, DotProduct r3 v + t.Z⟩

end Vocabulary

/-- A pipeline value that is NaN or an infinity. -/
def IsNaNOrInfinite (x : FFloat) : Prop := x = FFloat.nan ∨ x = FFloat.pinf ∨ x = FFloat.ninf

/-- The vector `ApplyMeshForce` is about to apply: the force vector, or its vertical
component only when `bVerticalForcesOnly` is set. -/
def vectorToApply (This : UBuoyantMeshComponent) (Force : FForce) : FVec :=
  if This.bVerticalForcesOnly then ⟨FFloat.fin 0, FFloat.fin 0, Force.Vector.Z⟩ else Force.Vector

/-- A mesh with no vertices and no triangle indices. -/
def IsEmptyMesh (TriangleMesh : FTriangleMesh FFloat) : Prop :=
  TriangleMesh.Vertices = [] ∧ TriangleMesh.TriangleVertexIndices = []

/-! ## The functions outside the translation unit, as the spec describes them -/

namespace SpecModel

/-- Strict comparison `a < b` of pipeline values; false whenever an operand is NaN. -/
def lt (a b : FFloat) : Bool := a.le b && !b.le a

/-- Reading of a pipeline vector whose components are all finite. -/
def toRat? (V : FVec) : Option (FVector ℚ) :=
  match V.X, V.Y, V.Z with
  | FFloat.fin x, FFloat.fin y, FFloat.fin z => some ⟨x, y, z⟩
  | _, _, _ => none

/-- Pipeline vector with the given finite components. -/
def ofRat (V : FVector ℚ) : FVec := ⟨FFloat.fin V.X, FFloat.fin V.Y, FFloat.fin V.Z⟩

/-- Vector whose components are all NaN: the result of arithmetic on a non-finite operand. -/
def NaNVector : FVec := ⟨FFloat.nan, FFloat.nan, FFloat.nan⟩

/-- Difference of two vectors. -/
def vsub (a b : FVector ℚ) : FVector ℚ := ⟨a.X - b.X, a.Y - b.Y, a.Z - b.Z⟩

/-- Sum of two vectors. -/
def vadd (a b : FVector ℚ) : FVector ℚ := ⟨a.X + b.X, a.Y + b.Y, a.Z + b.Z⟩

/-- Product of a scalar and a vector. -/
def smul (k : ℚ) (a : FVector ℚ) : FVector ℚ := ⟨k * a.X, k * a.Y, k * a.Z⟩

/-- Length of a vector. The square root of the engine is the parameter `Sqrt`: it is not
under `src/`, and no function on the rationals is an exact root everywhere, so nothing is
assumed of it. The concrete inputs of this file pass `Rat.sqrt`, the rounded-down roots of
numerator and denominator, which is exact on the square of every rational. -/
def length (Sqrt : ℚ → ℚ) (a : FVector ℚ) : ℚ := Sqrt (DotProduct a a)

/-- Modelled from the spec: the normal of `FBuoyantMeshTriangle::FromClockwiseVertices`,
"a derived unit normal (computed from the winding)", the zero vector for a degenerate
triangle. -/
def unitNormal (Sqrt : ℚ → ℚ) (A B C : FVector ℚ) : FVector ℚ :=
  let N := CrossProduct (vsub B A) (vsub C A)
  if length Sqrt N = 0 then ⟨0, 0, 0⟩ else smul (1 / length Sqrt N) N

/-- Modelled from the spec: `FBuoyantMeshTriangle::SortVerticesByHeight`, "sort the triangle's
3 vertices by height-above-water descending", equal heights keeping their order. -/
def SortVerticesByHeight (A B C : FBuoyantMeshVertex) :
    FBuoyantMeshVertex × FBuoyantMeshVertex × FBuoyantMeshVertex :=
  let AB := if lt A.Height B.Height then (B, A) else (A, B)
  let BC := if lt AB.2.Height C.Height then (C, AB.2) else (AB.2, C)
  let HM := if lt AB.1.Height BC.1.Height then (BC.1, AB.1) else (AB.1, BC.1)
  (HM.1, HM.2, BC.2)

/-- Modelled from the spec: `FBuoyantMeshTriangle::FromClockwiseVertices`, the triangle with
its unit normal and its vertices sorted by height. -/
def FromClockwiseVertices (Sqrt : ℚ → ℚ) (A B C : FBuoyantMeshVertex) : FBuoyantMeshTriangle :=
  let Normal :=
    match toRat? A.Position, toRat? B.Position, toRat? C.Position with
    | some a, some b, some c => ofRat (unitNormal Sqrt a b c)
    | _, _, _ => NaNVector
  let Sorted := SortVerticesByHeight A B C
  ⟨Normal, Sorted.1, Sorted.2.1, Sorted.2.2⟩

/-- Modelled from the spec: `FBuoyantMeshTriangle::FindCutOnEdge`, the point of the edge at
parametric distance `t = hS / (hS - hE)` from `Start`. -/
def FindCutOnEdge (Start End : FBuoyantMeshVertex) : FVec :=
  match Start.Height, End.Height, toRat? Start.Position, toRat? End.Position with
  | FFloat.fin hS, FFloat.fin hE, some s, some e =>
    ofRat (vadd s (smul (hS / (hS - hE)) (vsub e s)))
  | _, _, _, _ => NaNVector

/-- Modelled from the spec: `FBuoyantMeshTriangle::GetSubmergedPortion`, the four cases of the
triangle clipper (section 4.1). -/
def GetSubmergedPortion (Triangle : FBuoyantMeshTriangle) : List FBuoyantMeshSubtriangle :=
  let above := fun (V : FBuoyantMeshVertex) => lt (FFloat.fin 0) V.Height
  let below := fun (V : FBuoyantMeshVertex) => V.Height.le (FFloat.fin 0)
  let H := Triangle.H
  let M := Triangle.M
  let L := Triangle.L
  if above H && above M && above L then []
  else if below H && below M && below L then [⟨H.Position, M.Position, L.Position⟩]
  else if above H && below M && below L then
    [⟨M.Position, FindCutOnEdge H M, FindCutOnEdge H L⟩,
      ⟨M.Position, FindCutOnEdge H L, L.Position⟩]
  else if above H && above M && below L then
    [⟨FindCutOnEdge H L, FindCutOnEdge M L, L.Position⟩]
  else []

/-- Modelled from the spec: `FBuoyantMeshSubtriangle::GetCenter`, the centroid of the
sub-triangle. -/
def GetCenter (Subtriangle : FBuoyantMeshSubtriangle) : FVec :=
  match toRat? Subtriangle.A, toRat? Subtriangle.B, toRat? Subtriangle.C with
  | some a, some b, some c => ofRat (smul (1 / 3) (vadd (vadd a b) c))
  | _, _, _ => NaNVector

/-- Modelled from the spec: `FBuoyantMeshSubtriangle::GetArea`, the area of the
sub-triangle. -/
def GetArea (Sqrt : ℚ → ℚ) (Subtriangle : FBuoyantMeshSubtriangle) : FFloat :=
  match toRat? Subtriangle.A, toRat? Subtriangle.B, toRat? Subtriangle.C with
  | some a, some b, some c => FFloat.fin (length Sqrt (CrossProduct (vsub b a) (vsub c a)) / 2)
  | _, _, _ => FFloat.nan

/-- Modelled from the spec: `FBuoyantMeshSubtriangle::GetHydrostaticForce`, "force magnitude =
waterDensity × gravityMagnitude × d × A" with `d = -height`, "a pressure force ... acting to
push the surface patch away from the fluid": the force acts along the normal of the triangle
and presses against it, so that the forces on a closed surface with outward normals add up to
"the Archimedes upward force". The vector is the normal scaled by density, gravity, area and
the height of the centre, which is not positive under water. The spec's "direction = outward
normal" is read as the line of action: a force pointing along the outward normal would add up
to a downward net force. -/
def GetHydrostaticForce (WaterDensity GravityMagnitude : FFloat) (Center : FBuoyantMeshVertex)
    (TriangleNormal : FVec) (TriangleArea : FFloat) : FVec :=
  match WaterDensity, GravityMagnitude, Center.Height, toRat? TriangleNormal, TriangleArea with
  | FFloat.fin rho, FFloat.fin g, FFloat.fin h, some n, FFloat.fin A =>
    ofRat (smul (rho * g * h * A) n)
  | _, _, _, _, _ => NaNVector

/-- Modelled from the spec: `FBuoyantMeshSubtriangle::GetHydrodynamicForce`, "magnitude =
waterDensity × A × vn², direction opposing vn along the normal" when the surface advances
along its outward normal, zero otherwise. -/
def GetHydrodynamicForce (WaterDensity : FFloat) (TriangleCenter TriangleVelocity
    TriangleNormal : FVec) (TriangleArea : FFloat) : FVec :=
  match WaterDensity, toRat? TriangleVelocity, toRat? TriangleNormal, TriangleArea with
  | FFloat.fin rho, some v, some n, FFloat.fin A =>
    let vn := DotProduct v n
    if 0 < vn then ofRat (smul (-(rho * A * vn ^ 2)) n) else ZeroVector
  | _, _, _, _ => NaNVector

/-- The environment of a body at rest in still water whose surface is the plane `Z = 0`, with
the plugin's triangle and sub-triangle functions as the spec describes them, for a given
square-root function. -/
def stillWater (Sqrt : ℚ → ℚ) : FEnvironment where
  GetHeightAtPosition := fun _ => FFloat.fin 0
  GetWaveHeight := fun _ => FFloat.fin 0
  FromClockwiseVertices := FromClockwiseVertices Sqrt
  GetSubmergedPortion := GetSubmergedPortion
  GetCenter := GetCenter
  GetArea := GetArea Sqrt
  GetHydrostaticForce := GetHydrostaticForce
  GetHydrodynamicForce := GetHydrodynamicForce
  GetUnrealWorldVelocityAtPoint := fun _ => ZeroVector

end SpecModel

/-! ## Vocabulary of the Archimedes property -/

section ArchimedesVocabulary

open SpecModel

/-- World-space triangle: its three corners in the stored index order. -/
abbrev WorldTriangle := FVector ℚ × FVector ℚ × FVector ℚ

/-- The world-space triangles of an index list, read triple by triple. -/
def worldTriangles (World : List (FVector ℚ)) : List Int → List WorldTriangle
  | a :: b :: c :: rest =>
    (vertexOr0 World a, vertexOr0 World b, vertexOr0 World c) :: worldTriangles World rest
  | _ => []

/-- The directed edges of a list of triangles, three per triangle. -/
def directedEdges : List WorldTriangle → List (FVector ℚ × FVector ℚ)
  | [] => []
  | (a, b, c) :: rest => (a, b) :: (b, c) :: (c, a) :: directedEdges rest

/-- Closed, consistently wound surface: every directed edge is matched by its reverse. -/
def IsClosedSurface (Triangles : List WorldTriangle) : Prop :=
  (directedEdges Triangles).Perm ((directedEdges Triangles).map Prod.swap)

/-- Signed volume enclosed by a list of triangles: the sum of their signed tetrahedron
volumes. -/
def signedVolume (Triangles : List WorldTriangle) : ℚ :=
  (Triangles.map fun t => TMathUtilities.SignedVolumeOfTriangle t.1 t.2.1 t.2.2).sum

/-- The mesh is wound so that the signed tetrahedron volumes, each triangle taken with the
corner order `0, 2, 1` that `ApplyMeshForces` and `MeshVolume` read, do not sum to a negative
number. For a closed surface this says that the normals `FromClockwiseVertices` derives point
out of the enclosed body (divergence theorem). -/
def IsWoundOutward (World : List (FVector ℚ)) (TriangleVertexIndices : List Int) : Prop :=
  0 ≤ tripleSum (fun v => v) World TriangleVertexIndices

/-- The hydrostatic force on a triangle with stored corners `a b c` below the plane `Z = 0`:
density times gravity times the height of the centroid times half of `(c - a) x (b - a)`,
the normal of the corner order `a c b` scaled by twice the area. -/
def hydrostaticForce (rho grav : ℚ) (t : WorldTriangle) : FVector ℚ :=
  smul (rho * grav * ((t.1.Z + t.2.1.Z + t.2.2.Z) / 3) / 2)
    (CrossProduct (vsub t.2.2 t.1) (vsub t.2.1 t.1))

/-- A vector, or its vertical component only. -/
def verticalPart (vertical : Bool) (f : FVector ℚ) : FVector ℚ :=
  if vertical then ⟨0, 0, f.Z⟩ else f

/-- No force of a triangle with stored corners `a b c` is filtered out on the way to the
sink: the triangle is degenerate (its cross product is zero, so is its force) or its area is
above the tolerance `SMALL_NUMBER` of `GetSubmergedTriangleForce`, and the vector to apply is
zero or not within the tolerance `KINDA_SMALL_NUMBER` of `ApplyMeshForce`. -/
def NoForceFiltered (Sqrt : ℚ → ℚ) (vertical : Bool) (rho grav : ℚ) (t : WorldTriangle) : Prop :=
  (CrossProduct (vsub t.2.2 t.1) (vsub t.2.1 t.1) = ⟨0, 0, 0⟩ ∨
    SMALL_NUMBER < length Sqrt (CrossProduct (vsub t.2.2 t.1) (vsub t.2.1 t.1)) / 2) ∧
  (verticalPart vertical (hydrostaticForce rho grav t) = ⟨0, 0, 0⟩ ∨
    (ofRat (verticalPart vertical (hydrostaticForce rho grav t))).IsNearlyZero = false)

instance (Sqrt : ℚ → ℚ) (vertical : Bool) (rho grav : ℚ) (t : WorldTriangle) :
    Decidable (NoForceFiltered Sqrt vertical rho grav t) := by
  unfold NoForceFiltered
  exact inferInstance

instance (World : List (FVector ℚ)) (TriangleVertexIndices : List Int) :
    Decidable (IsWoundOutward World TriangleVertexIndices) := by
  unfold IsWoundOutward
  exact inferInstance

/-- The pipeline vertex of a finite world position in still water: its height is its `Z`. -/
def stillWaterVertex (w : FVector ℚ) : FBuoyantMeshVertex := ⟨ofRat w, FFloat.fin w.Z⟩

/-- The sink after the forces of one submerged triangle with corners `a b c` (stored order)
have been applied, as `ApplyMeshForces` does it in still water. -/
def applyWorldTriangle (Sqrt : ℚ → ℚ) (This : UBuoyantMeshComponent)
    (Sink : List FAddForceAtLocation) (t : WorldTriangle) : List FAddForceAtLocation :=
  let Triangle := (stillWater Sqrt).FromClockwiseVertices (stillWaterVertex t.1)
    (stillWaterVertex t.2.2) (stillWaterVertex t.2.1)
  ((stillWater Sqrt).GetSubmergedPortion Triangle).foldl
    (fun Sink SubTriangle =>
      UBuoyantMeshComponent.ApplyMeshForce This
        (UBuoyantMeshComponent.GetSubmergedTriangleForce (stillWater Sqrt) This SubTriangle
          Triangle.Normal) Sink)
    Sink

/-- The corners `x y z` are the corners `a b c` in some order. -/
def IsCornerPerm (a b c x y z : FVector ℚ) : Prop :=
  (x, y, z) = (a, b, c) ∨ (x, y, z) = (a, c, b) ∨ (x, y, z) = (b, a, c) ∨
    (x, y, z) = (b, c, a) ∨ (x, y, z) = (c, a, b) ∨ (x, y, z) = (c, b, a)

/-- Edge term of the X component of the pressure integral; it changes sign with the direction
of the edge. -/
def edgeX (e : FVector ℚ × FVector ℚ) : ℚ :=
  (e.1.Z + e.2.Z) * (e.1.Y * e.2.Z - e.1.Z * e.2.Y)

/-- Edge term of the Y component of the pressure integral. -/
def edgeY (e : FVector ℚ × FVector ℚ) : ℚ :=
  (e.1.Z + e.2.Z) * (e.1.Z * e.2.X - e.1.X * e.2.Z)

/-- Edge term of the Z component of the pressure integral. -/
def edgeZ (e : FVector ℚ × FVector ℚ) : ℚ :=
  (e.1.Z + e.2.Z) * (e.1.X * e.2.Y - e.1.Y * e.2.X)

/-- The vector sum of the forces passed to the sink. -/
def forceSum (Calls : List FAddForceAtLocation) : FVec :=
  Calls.foldl (fun Sum Call => Sum.add Call.Force) ZeroVector

end ArchimedesVocabulary

/-! ## Concrete inputs -/

/-- A tetrahedron with corners at the origin and on the three axes, as a static mesh of one
section, on a component translated by `(1, 2, 3)`. -/
def tetrahedronComponent : UStaticMeshComponent ℚ where
  StaticMesh := some
    { bAllowCPUAccess := true
      Sections := [([⟨0, 0, 0⟩, ⟨1, 0, 0⟩, ⟨0, 1, 0⟩, ⟨0, 0, 1⟩],
        [0, 2, 1, 0, 1, 3, 0, 3, 2, 1, 2, 3])] }
  TransformPosition := fun v => ⟨v.X + 1, v.Y + 2, v.Z + 3⟩

/-- The mesh `GetTriangleMeshes` extracts from `tetrahedronComponent`. -/
def tetrahedronMesh : FTriangleMesh ℚ :=
  ⟨[⟨0, 0, 0⟩, ⟨1, 0, 0⟩, ⟨0, 1, 0⟩, ⟨0, 0, 1⟩], [0, 2, 1, 0, 1, 3, 0, 3, 2, 1, 2, 3]⟩

/-- The tetrahedron of `tetrahedronComponent` with the winding of every triangle reversed. -/
def reversedTetrahedronComponent : UStaticMeshComponent ℚ where
  StaticMesh := some
    { bAllowCPUAccess := true
      Sections := [([⟨0, 0, 0⟩, ⟨1, 0, 0⟩, ⟨0, 1, 0⟩, ⟨0, 0, 1⟩],
        [0, 1, 2, 0, 3, 1, 0, 2, 3, 1, 3, 2])] }
  TransformPosition := fun v => ⟨v.X + 1, v.Y + 2, v.Z + 3⟩

/-- A unit cube, every face split along its first diagonal, on a component rotated about the
Z axis by the angle with cosine `3 / 5` and sine `4 / 5` and translated by `(5, -7, 11)`. -/
def rotatedCubeComponent : UStaticMeshComponent ℚ where
  StaticMesh := some
    { bAllowCPUAccess := true
      Sections := [(unitCubeVertices, unitCubeIndices fun _ => true)] }
  TransformPosition := fun v =>
    ⟨3 / 5 * v.X - 4 / 5 * v.Y + 5, 4 / 5 * v.X + 3 / 5 * v.Y - 7, v.Z + 11⟩

/-- One horizontal triangle one unit below the plane `Z = 0`. -/
def sunkTriangle : FTriangleMesh FFloat :=
  ⟨[⟨FFloat.fin 0, FFloat.fin 0, FFloat.fin (-1)⟩, ⟨FFloat.fin 1, FFloat.fin 0, FFloat.fin (-1)⟩,
    ⟨FFloat.fin 0, FFloat.fin 1, FFloat.fin (-1)⟩], [0, 1, 2]⟩

/-- A component at the identity transform that holds `sunkTriangle`, with hydrostatic forces
only, water density 1000, gravity 980, and no valid ocean manager. -/
def sunkComponent : UBuoyantMeshComponent where
  StaticMesh := some { bAllowCPUAccess := true, Sections := [(sunkTriangle.Vertices, [0, 1, 2])] }
  TransformPosition := fun v => v
  bHasInitialized := true
  OceanManager := false
  WaterHeightmap := false
  bUseWaterPatch := false
  TriangleMeshes := [sunkTriangle]
  GravityMagnitude := FFloat.fin 980
  WaterDensity := FFloat.fin 1000
  bUseStaticForces := true
  bUseDynamicForces := false
  bVerticalForcesOnly := false

/-- The one call of the sink that a step makes for `sunkComponent` in still water. -/
def sunkTriangleCall : FAddForceAtLocation :=
  ⟨⟨FFloat.fin 0, FFloat.fin 0, FFloat.fin 490000⟩,
    ⟨FFloat.fin (1 / 3), FFloat.fin (1 / 3), FFloat.fin (-1)⟩⟩

/-- A force whose vector has a NaN component. -/
def nanForce : FForce :=
  ⟨⟨FFloat.fin 1, FFloat.nan, FFloat.fin 2⟩, ⟨FFloat.fin 0, FFloat.fin 0, FFloat.fin 0⟩⟩

/-- A sub-triangle whose three corners coincide at `(1, 1, 1)`. -/
def pointSubtriangle : FBuoyantMeshSubtriangle :=
  ⟨⟨FFloat.fin 1, FFloat.fin 1, FFloat.fin 1⟩, ⟨FFloat.fin 1, FFloat.fin 1, FFloat.fin 1⟩,
    ⟨FFloat.fin 1, FFloat.fin 1, FFloat.fin 1⟩⟩

/-- The component `sunkComponent` before its first tick: not initialised, no meshes cached. -/
def freshComponent : UBuoyantMeshComponent :=
  { sunkComponent with bHasInitialized := false, TriangleMeshes := [], GravityMagnitude := FFloat.fin 0 }

/-- A tick in still water in which the updated component is valid but does not simulate
physics. -/
def idleWorld : FWorld :=
  { SpecModel.stillWater Rat.sqrt with
    WITH_EDITOR := true
    FindOceanManager := true
    FindWaterHeightmap := false
    GravityZ := FFloat.fin (-980)
    UpdatedComponentIsValid := true
    UpdatedComponentIsSimulatingPhysics := false }

/-- A component that holds two empty meshes. -/
def emptyMeshComponent : UBuoyantMeshComponent :=
  { sunkComponent with TriangleMeshes := [⟨[], []⟩, ⟨[], []⟩] }

/-- World-space corners of the unit cube centred at the given depth below the plane `Z = 0`. -/
def sunkCubeWorld (depth : ℚ) : List (FVector ℚ) :=
  [⟨0, 0, -depth - 1 / 2⟩, ⟨1, 0, -depth - 1 / 2⟩, ⟨1, 1, -depth - 1 / 2⟩,
    ⟨0, 1, -depth - 1 / 2⟩, ⟨0, 0, -depth + 1 / 2⟩, ⟨1, 0, -depth + 1 / 2⟩,
    ⟨1, 1, -depth + 1 / 2⟩, ⟨0, 1, -depth + 1 / 2⟩]

/-- The indices of the unit cube, every face split along its first diagonal, wound so that the
normals `FromClockwiseVertices` derives point out of the cube. -/
def sunkCubeIndices : List Int := reverseWinding (unitCubeIndices fun _ => true)

/-- The unit cube centred at the given depth, as a mesh of the force pipeline. -/
def sunkCubeMesh (depth : ℚ) : FTriangleMesh FFloat :=
  ⟨(sunkCubeWorld depth).map SpecModel.ofRat, sunkCubeIndices⟩

/-- A component at the identity transform that holds the unit cube centred at the given
depth, with hydrostatic forces only and the given water density and gravity. -/
def sunkCubeComponent (depth rho grav : ℚ) : UBuoyantMeshComponent :=
  { sunkComponent with
    TriangleMeshes := [sunkCubeMesh depth]
    WaterDensity := FFloat.fin rho
    GravityMagnitude := FFloat.fin grav }

/-- The unit cube centred at the given depth as a static mesh component at the identity
transform, for the volume computation. -/
def sunkCubeStatic (depth : ℚ) : UStaticMeshComponent ℚ where
  StaticMesh := some
    { bAllowCPUAccess := true
      Sections := [(sunkCubeWorld depth, sunkCubeIndices)] }
  TransformPosition := fun v => v

/-- World-space corners of a tetrahedron below the plane `Z = 0`: three corners at depth 2 and
the apex at depth 1. The slanted face has a normal of squared length 3, which has no rational
root. -/
def sunkTetrahedronWorld : List (FVector ℚ) :=
  [⟨0, 0, -2⟩, ⟨1, 0, -2⟩, ⟨0, 1, -2⟩, ⟨0, 0, -1⟩]

/-- The indices of the tetrahedron, wound so that the normals `FromClockwiseVertices` derives
point out of it. -/
def sunkTetrahedronIndices : List Int := [0, 1, 2, 0, 3, 1, 0, 2, 3, 1, 3, 2]

/-- A component at the identity transform that holds the sunk tetrahedron, with hydrostatic
forces only, water density 1000 and gravity 980. -/
def sunkTetrahedronComponent : UBuoyantMeshComponent :=
  { sunkComponent with
    TriangleMeshes := [⟨sunkTetrahedronWorld.map SpecModel.ofRat, sunkTetrahedronIndices⟩] }

/-- The sunk tetrahedron as a static mesh component at the identity transform, for the volume
computation. -/
def sunkTetrahedronStatic : UStaticMeshComponent ℚ where
  StaticMesh := some
    { bAllowCPUAccess := true
      Sections := [(sunkTetrahedronWorld, sunkTetrahedronIndices)] }
  TransformPosition := fun v => v

/-! ## Volume calibration: lemmas -/

section VolumeLemmas

open TMathUtilities TMeshUtilities

variable {α : Type} [LinearOrderedField α]

theorem arrayAt_natCast_eq {β : Type} (xs : List β) (k : Nat) :
    arrayAt xs (k : Int) = xs[k]? := by
  unfold arrayAt
  by_cases h : k < xs.length
  · rw [if_pos ⟨by omega, by omega⟩]; simp
  · rw [if_neg (by omega)]
    exact (List.getElem?_eq_none (by omega)).symm

theorem arrayAt_of_inRange {β : Type} (xs : List β) (j : Int) (d : β)
    (h : 0 ≤ j ∧ j < (xs.length : Int)) : arrayAt xs j = some (xs.getD j.toNat d) := by
  unfold arrayAt
  rw [if_pos h]
  have : j.toNat < xs.length := by omega
  simp [List.getD, List.getElem?_eq_getElem this]

theorem vertexOfIndex_eq (TriangleMesh : FTriangleMesh α) (h : IndicesInRange TriangleMesh)
    (k : Nat) (hk : k < TriangleMesh.TriangleVertexIndices.length) :
    vertexOfIndex TriangleMesh k = some (cornerOf TriangleMesh k) := by
  unfold vertexOfIndex cornerOf vertexOr0
  rw [arrayAt_natCast_eq, List.getElem?_eq_getElem hk]
  have hmem : TriangleMesh.TriangleVertexIndices.getD k 0 ∈ TriangleMesh.TriangleVertexIndices := by
    simp [List.getD, List.getElem?_eq_getElem hk]
  have hget : TriangleMesh.TriangleVertexIndices.getD k 0 = TriangleMesh.TriangleVertexIndices[k] := by
    simp [List.getD, List.getElem?_eq_getElem hk]
  simp only [Option.some_bind]
  rw [hget] at hmem ⊢
  exact arrayAt_of_inRange _ _ _ (h _ hmem)

theorem foldlM_addTriangleVolume (Component : UStaticMeshComponent α)
    (TriangleMesh : FTriangleMesh α) (h : IndicesInRange TriangleMesh) (Volume : α) :
    ∀ n : Nat, 3 * n ≤ TriangleMesh.TriangleVertexIndices.length →
      (List.range n).foldlM (addTriangleVolume (some Component) TriangleMesh) Volume =
        some (Volume + ∑ i in Finset.range n,
          SignedVolumeOfTriangle
            (Component.TransformPosition (cornerOf TriangleMesh (i * 3 + 0)))
            (Component.TransformPosition (cornerOf TriangleMesh (i * 3 + 2)))
            (Component.TransformPosition (cornerOf TriangleMesh (i * 3 + 1)))) := by
  intro n
  induction n with
  | zero => intro _; simp
  | succ n ih =>
    intro hn
    rw [List.range_succ, List.foldlM_append, ih (by omega)]
    simp only [Option.some_bind, Option.bind_eq_bind, List.foldlM_cons, List.foldlM_nil]
    unfold addTriangleVolume
    rw [vertexOfIndex_eq _ h _ (by omega), vertexOfIndex_eq _ h _ (by omega),
      vertexOfIndex_eq _ h _ (by omega)]
    simp only [Option.some_bind, Finset.sum_range_succ, add_assoc]
    rfl

theorem addMeshVolume_eq_sum (Component : UStaticMeshComponent α)
    (TriangleMesh : FTriangleMesh α) (h : IndicesInRange TriangleMesh) (Volume : α) :
    addMeshVolume (some Component) Volume TriangleMesh =
      some (Volume + ∑ i in Finset.range (TriangleMesh.TriangleVertexIndices.length / 3),
        SignedVolumeOfTriangle
          (Component.TransformPosition (cornerOf TriangleMesh (i * 3 + 0)))
          (Component.TransformPosition (cornerOf TriangleMesh (i * 3 + 2)))
          (Component.TransformPosition (cornerOf TriangleMesh (i * 3 + 1)))) := by
  unfold addMeshVolume
  exact foldlM_addTriangleVolume Component TriangleMesh h Volume _ (by omega)

theorem MeshVolume_of_extract (WITH_EDITOR : Bool) (Component : UStaticMeshComponent α)
    (TriangleMesh : FTriangleMesh α)
    (hExtract : GetTriangleMeshes WITH_EDITOR (some Component) = some [TriangleMesh]) :
    MeshVolume WITH_EDITOR (some Component) =
      (addMeshVolume (some Component) 0 TriangleMesh).map fun Volume => |Volume| := by
  unfold MeshVolume
  rw [hExtract]
  simp only [Option.some_bind, List.foldlM_cons, List.foldlM_nil, Option.bind_eq_bind]
  cases addMeshVolume (some Component) 0 TriangleMesh <;> simp

theorem SignedVolumeOfTriangle_swap23 (p1 p2 p3 : FVector α) :
    SignedVolumeOfTriangle p1 p3 p2 = -SignedVolumeOfTriangle p1 p2 p3 := by
  unfold SignedVolumeOfTriangle; ring

theorem MeshVolume_nonneg (WITH_EDITOR : Bool)
    (StaticMeshComponent : Option (UStaticMeshComponent α)) (v : α)
    (h : MeshVolume WITH_EDITOR StaticMeshComponent = some v) : 0 ≤ v := by
  unfold MeshVolume at h
  cases hM : GetTriangleMeshes WITH_EDITOR StaticMeshComponent with
  | none => rw [hM] at h; simp at h
  | some Meshes =>
    rw [hM] at h
    simp only [Option.some_bind] at h
    cases hV : Meshes.foldlM (addMeshVolume StaticMeshComponent) (0 : α) with
    | none => rw [hV] at h; simp at h
    | some Volume =>
      rw [hV] at h
      simp only [Option.some_bind, Option.some.injEq] at h
      rw [← h]
      exact abs_nonneg Volume

end VolumeLemmas

/-! ## Volume calibration: claims -/

section VolumeClaims

open TMathUtilities TMeshUtilities

variable {α : Type} [LinearOrderedField α]

/-- C1: for a triangle mesh extracted from the component whose indices reference vertices,
`MeshVolume` returns the absolute value of the sum, over the `n / 3` index triples, of the
signed volume of the transformed triangle; `SignedVolumeOfTriangle` is one sixth of the scalar
triple product, which is the 3x3 determinant of the three points; whatever `MeshVolume`
returns is not negative. -/
theorem MeshVolume_eq_abs_sum_of_signed_volumes (WITH_EDITOR : Bool)
    (Component : UStaticMeshComponent α) (TriangleMesh : FTriangleMesh α)
    (hExtract : GetTriangleMeshes WITH_EDITOR (some Component) = some [TriangleMesh])
    (hRange : IndicesInRange TriangleMesh) :
    MeshVolume WITH_EDITOR (some Component) =
        some |∑ i in Finset.range (TriangleMesh.TriangleVertexIndices.length / 3),
          SignedVolumeOfTriangle
            (Component.TransformPosition (cornerOf TriangleMesh (i * 3 + 0)))
            (Component.TransformPosition (cornerOf TriangleMesh (i * 3 + 1)))
            (Component.TransformPosition (cornerOf TriangleMesh (i * 3 + 2)))| ∧
      (∀ p1 p2 p3 : FVector α,
        SignedVolumeOfTriangle p1 p2 p3 = (1 / 6) * tripleProduct p1 p2 p3 ∧
        tripleProduct p1 p2 p3 =
          Matrix.det !![p1.X, p1.Y, p1.Z; p2.X, p2.Y, p2.Z; p3.X, p3.Y, p3.Z]) ∧
      (∀ (Editor : Bool) (Any : Option (UStaticMeshComponent α)) (v : α),
        MeshVolume Editor Any = some v → 0 ≤ v) := by
  refine ⟨?_, ?_, ?_⟩
  · rw [MeshVolume_of_extract WITH_EDITOR Component TriangleMesh hExtract,
      addMeshVolume_eq_sum Component TriangleMesh hRange]
    simp only [Option.map_some', zero_add, Option.some.injEq]
    have hneg : ∀ i : Nat,
        SignedVolumeOfTriangle
            (Component.TransformPosition (cornerOf TriangleMesh (i * 3 + 0)))
            (Component.TransformPosition (cornerOf TriangleMesh (i * 3 + 2)))
            (Component.TransformPosition (cornerOf TriangleMesh (i * 3 + 1))) =
          -SignedVolumeOfTriangle
            (Component.TransformPosition (cornerOf TriangleMesh (i * 3 + 0)))
            (Component.TransformPosition (cornerOf TriangleMesh (i * 3 + 1)))
            (Component.TransformPosition (cornerOf TriangleMesh (i * 3 + 2))) :=
      fun i => SignedVolumeOfTriangle_swap23 _ _ _
    simp only [hneg, Finset.sum_neg_distrib, abs_neg]
  · intro p1 p2 p3
    constructor
    · unfold SignedVolumeOfTriangle tripleProduct DotProduct CrossProduct
      ring
    · rw [Matrix.det_fin_three]
      simp [tripleProduct, DotProduct, CrossProduct]
      ring
  · intro Editor Any v h
    exact MeshVolume_nonneg Editor Any v h

/-- C1 at the tetrahedron translated by `(1, 2, 3)`: the hypotheses hold and the volume
is `1 / 6`. -/
theorem MeshVolume_eq_abs_sum_of_signed_volumes_witness :
    MeshVolume true (some tetrahedronComponent) = some (1 / 6 : ℚ) := by
  have h := (MeshVolume_eq_abs_sum_of_signed_volumes true tetrahedronComponent tetrahedronMesh
    (by rfl) (by intro k hk; simp [tetrahedronMesh] at hk ⊢; omega)).1
  rw [h]
  have e1 : Int.toNat 1 = 1 := rfl
  have e2 : Int.toNat 2 = 2 := rfl
  have e3 : Int.toNat 3 = 3 := rfl
  simp only [tetrahedronMesh, tetrahedronComponent, Finset.sum_range_succ, Finset.sum_range_zero,
    cornerOf, vertexOr0, List.length_cons, List.length_nil]
  norm_num [e1, e2, e3, SignedVolumeOfTriangle]

end VolumeClaims

/-! ## Winding reversal -/

section WindingLemmas

open TMathUtilities TMeshUtilities

variable {α : Type} [LinearOrderedField α]

theorem length_reverseWinding : ∀ l : List Int, (reverseWinding l).length = l.length
  | [] => rfl
  | [_] => rfl
  | [_, _] => rfl
  | a :: b :: c :: rest => by
    simp [reverseWinding, length_reverseWinding rest]

theorem getElem?_reverseWinding (i : Nat) : ∀ l : List Int, 3 * i + 2 < l.length →
    (reverseWinding l)[i * 3 + 0]? = l[i * 3 + 0]? ∧
    (reverseWinding l)[i * 3 + 1]? = l[i * 3 + 2]? ∧
    (reverseWinding l)[i * 3 + 2]? = l[i * 3 + 1]? := by
  induction i with
  | zero =>
    intro l hl
    match l, hl with
    | a :: b :: c :: rest, _ => simp [reverseWinding]
  | succ i ih =>
    intro l hl
    match l, hl with
    | a :: b :: c :: rest, hl =>
      have hr : 3 * i + 2 < rest.length := by simp at hl; omega
      obtain ⟨h0, h1, h2⟩ := ih rest hr
      have e0 : (i + 1) * 3 + 0 = (i * 3 + 0) + 1 + 1 + 1 := by ring
      have e1 : (i + 1) * 3 + 1 = (i * 3 + 1) + 1 + 1 + 1 := by ring
      have e2 : (i + 1) * 3 + 2 = (i * 3 + 2) + 1 + 1 + 1 := by ring
      rw [e0, e1, e2]
      simp only [reverseWinding, List.getElem?_cons_succ]
      exact ⟨h0, h1, h2⟩

theorem vertexOfIndex_reverseMesh (TriangleMesh : FTriangleMesh α) (i : Nat)
    (hi : 3 * i + 2 < TriangleMesh.TriangleVertexIndices.length) :
    vertexOfIndex (reverseMesh TriangleMesh) (i * 3 + 0) =
        vertexOfIndex TriangleMesh (i * 3 + 0) ∧
      vertexOfIndex (reverseMesh TriangleMesh) (i * 3 + 1) =
        vertexOfIndex TriangleMesh (i * 3 + 2) ∧
      vertexOfIndex (reverseMesh TriangleMesh) (i * 3 + 2) =
        vertexOfIndex TriangleMesh (i * 3 + 1) := by
  obtain ⟨h0, h1, h2⟩ := getElem?_reverseWinding i TriangleMesh.TriangleVertexIndices hi
  unfold vertexOfIndex reverseMesh
  simp only [arrayAt_natCast_eq]
  refine ⟨?_, ?_, ?_⟩
  · rw [h0]
  · rw [h1]
  · rw [h2]

theorem addTriangleVolume_reverseMesh (StaticMeshComponent : Option (UStaticMeshComponent α))
    (TriangleMesh : FTriangleMesh α) (Volume : α) (i : Nat)
    (hi : 3 * i + 2 < TriangleMesh.TriangleVertexIndices.length) :
    addTriangleVolume StaticMeshComponent (reverseMesh TriangleMesh) (-Volume) i =
      (addTriangleVolume StaticMeshComponent TriangleMesh Volume i).map Neg.neg := by
  obtain ⟨h0, h1, h2⟩ := vertexOfIndex_reverseMesh TriangleMesh i hi
  unfold addTriangleVolume
  rw [h0, h1, h2]
  cases vertexOfIndex TriangleMesh (i * 3 + 0) <;>
    cases vertexOfIndex TriangleMesh (i * 3 + 1) <;>
    cases vertexOfIndex TriangleMesh (i * 3 + 2) <;> cases StaticMeshComponent <;>
    simp only [Option.none_bind, Option.some_bind, Option.map_none', Option.map_some']
  rename_i a b c Component
  rw [SignedVolumeOfTriangle_swap23 (Component.TransformPosition a)
    (Component.TransformPosition c) (Component.TransformPosition b)]
  congr 1
  ring

theorem foldlM_reverseMesh (StaticMeshComponent : Option (UStaticMeshComponent α))
    (TriangleMesh : FTriangleMesh α) (Volume : α) :
    ∀ n : Nat, 3 * n ≤ TriangleMesh.TriangleVertexIndices.length →
      (List.range n).foldlM (addTriangleVolume StaticMeshComponent (reverseMesh TriangleMesh))
          (-Volume) =
        ((List.range n).foldlM (addTriangleVolume StaticMeshComponent TriangleMesh)
          Volume).map Neg.neg := by
  intro n
  induction n with
  | zero => intro _; simp
  | succ n ih =>
    intro hn
    rw [List.range_succ, List.foldlM_append, List.foldlM_append, ih (by omega)]
    cases h : (List.range n).foldlM (addTriangleVolume StaticMeshComponent TriangleMesh)
        Volume with
    | none => simp
    | some V =>
      simp only [Option.map_some', Option.some_bind, Option.bind_eq_bind, List.foldlM_cons,
        List.foldlM_nil]
      rw [addTriangleVolume_reverseMesh _ _ _ _ (by omega)]
      cases addTriangleVolume StaticMeshComponent TriangleMesh V n <;> simp

theorem addMeshVolume_reverseMesh (StaticMeshComponent : Option (UStaticMeshComponent α))
    (TriangleMesh : FTriangleMesh α) (Volume : α) :
    addMeshVolume StaticMeshComponent (-Volume) (reverseMesh TriangleMesh) =
      (addMeshVolume StaticMeshComponent Volume TriangleMesh).map Neg.neg := by
  unfold addMeshVolume
  have hl : (reverseMesh TriangleMesh).TriangleVertexIndices.length =
      TriangleMesh.TriangleVertexIndices.length := length_reverseWinding _
  simp only [hl]
  exact foldlM_reverseMesh _ _ _ _ (by omega)

theorem addMeshVolume_congr_transform (A B : UStaticMeshComponent α)
    (h : A.TransformPosition = B.TransformPosition) (Volume : α)
    (TriangleMesh : FTriangleMesh α) :
    addMeshVolume (some A) Volume TriangleMesh = addMeshVolume (some B) Volume TriangleMesh := by
  have hf : addTriangleVolume (some A) TriangleMesh = addTriangleVolume (some B) TriangleMesh := by
    funext V i
    simp only [addTriangleVolume, Option.some_bind, h]
  unfold addMeshVolume
  rw [hf]

theorem MeshVolume_reverseMesh_of_extract (WITH_EDITOR : Bool)
    (Component Reversed : UStaticMeshComponent α) (TriangleMesh : FTriangleMesh α)
    (hExtract : GetTriangleMeshes WITH_EDITOR (some Component) = some [TriangleMesh])
    (hReversed :
      GetTriangleMeshes WITH_EDITOR (some Reversed) = some [reverseMesh TriangleMesh])
    (hTransform : Reversed.TransformPosition = Component.TransformPosition) :
    MeshVolume WITH_EDITOR (some Reversed) = MeshVolume WITH_EDITOR (some Component) := by
  rw [MeshVolume_of_extract WITH_EDITOR Component TriangleMesh hExtract,
    MeshVolume_of_extract WITH_EDITOR Reversed (reverseMesh TriangleMesh) hReversed,
    addMeshVolume_congr_transform Reversed Component hTransform]
  have h := addMeshVolume_reverseMesh (some Component) TriangleMesh 0
  rw [neg_zero] at h
  rw [h]
  cases addMeshVolume (some Component) 0 TriangleMesh <;> simp

end WindingLemmas

section WindingClaims

open TMathUtilities TMeshUtilities

variable {α : Type} [LinearOrderedField α]

/-- C10: `SignedVolumeOfTriangle` changes sign when any two of its three vertices are swapped,
and a component whose extracted mesh has the winding of every triangle reversed (second and
third index of each triple swapped), under the same transform, has the same `MeshVolume`,
failed range checks included. -/
theorem MeshVolume_invariant_under_winding_reversal (WITH_EDITOR : Bool)
    (Component Reversed : UStaticMeshComponent α) (TriangleMesh : FTriangleMesh α)
    (hExtract : GetTriangleMeshes WITH_EDITOR (some Component) = some [TriangleMesh])
    (hReversed :
      GetTriangleMeshes WITH_EDITOR (some Reversed) = some [reverseMesh TriangleMesh])
    (hTransform : Reversed.TransformPosition = Component.TransformPosition) :
    (∀ p1 p2 p3 : FVector α,
        SignedVolumeOfTriangle p2 p1 p3 = -SignedVolumeOfTriangle p1 p2 p3 ∧
        SignedVolumeOfTriangle p1 p3 p2 = -SignedVolumeOfTriangle p1 p2 p3 ∧
        SignedVolumeOfTriangle p3 p2 p1 = -SignedVolumeOfTriangle p1 p2 p3) ∧
      MeshVolume WITH_EDITOR (some Reversed) = MeshVolume WITH_EDITOR (some Component) := by
  refine ⟨?_, MeshVolume_reverseMesh_of_extract WITH_EDITOR Component Reversed TriangleMesh
    hExtract hReversed hTransform⟩
  intro p1 p2 p3
  refine ⟨?_, ?_, ?_⟩ <;> (unfold SignedVolumeOfTriangle; ring)

/-- C10 at the translated tetrahedron and the same tetrahedron with reversed winding. -/
theorem MeshVolume_invariant_under_winding_reversal_witness :
    MeshVolume true (some reversedTetrahedronComponent) =
      MeshVolume true (some tetrahedronComponent) :=
  (MeshVolume_invariant_under_winding_reversal true tetrahedronComponent
    reversedTetrahedronComponent tetrahedronMesh (by rfl) (by rfl) (by rfl)).2

end WindingClaims

/-! ## Unit cube under rigid transforms -/

section CubeLemmas

open TMathUtilities TMeshUtilities

variable {α : Type} [LinearOrderedField α]

theorem cornerOf_cons3 (Vertices : List (FVector α)) (a b c : Int) (rest : List Int) (k : Nat) :
    cornerOf ⟨Vertices, a :: b :: c :: rest⟩ (k + 3) = cornerOf ⟨Vertices, rest⟩ k := by
  simp [cornerOf, List.getD]

theorem sum_range_eq_tripleSum (T : FVector α → FVector α) (Vertices : List (FVector α)) :
    ∀ (n : Nat) (l : List Int), l.length / 3 = n →
      ∑ i in Finset.range n,
        SignedVolumeOfTriangle (T (cornerOf ⟨Vertices, l⟩ (i * 3 + 0)))
          (T (cornerOf ⟨Vertices, l⟩ (i * 3 + 2))) (T (cornerOf ⟨Vertices, l⟩ (i * 3 + 1))) =
        tripleSum T Vertices l := by
  intro n
  induction n with
  | zero =>
    intro l hl
    match l, hl with
    | [], _ => simp [tripleSum]
    | [_], _ => simp [tripleSum]
    | [_, _], _ => simp [tripleSum]
    | a :: b :: c :: rest, hl => simp only [List.length_cons] at hl; omega
  | succ n ih =>
    intro l hl
    match l, hl with
    | [], hl => simp only [List.length_nil] at hl; omega
    | [_], hl => simp only [List.length_cons, List.length_nil] at hl; omega
    | [_, _], hl => simp only [List.length_cons, List.length_nil] at hl; omega
    | a :: b :: c :: rest, hl =>
      have hr : rest.length / 3 = n := by simp only [List.length_cons] at hl; omega
      rw [Finset.sum_range_succ', tripleSum]
      have hstep : ∀ i : Nat,
          SignedVolumeOfTriangle (T (cornerOf ⟨Vertices, a :: b :: c :: rest⟩ ((i + 1) * 3 + 0)))
            (T (cornerOf ⟨Vertices, a :: b :: c :: rest⟩ ((i + 1) * 3 + 2)))
            (T (cornerOf ⟨Vertices, a :: b :: c :: rest⟩ ((i + 1) * 3 + 1))) =
          SignedVolumeOfTriangle (T (cornerOf ⟨Vertices, rest⟩ (i * 3 + 0)))
            (T (cornerOf ⟨Vertices, rest⟩ (i * 3 + 2)))
            (T (cornerOf ⟨Vertices, rest⟩ (i * 3 + 1))) := by
        intro i
        have e0 : (i + 1) * 3 + 0 = (i * 3 + 0) + 3 := by ring
        have e1 : (i + 1) * 3 + 1 = (i * 3 + 1) + 3 := by ring
        have e2 : (i + 1) * 3 + 2 = (i * 3 + 2) + 3 := by ring
        rw [e0, e1, e2, cornerOf_cons3, cornerOf_cons3, cornerOf_cons3]
        rfl
      simp only [hstep]
      rw [ih rest hr, add_comm]
      simp [cornerOf, List.getD]

theorem addMeshVolume_eq_tripleSum (Component : UStaticMeshComponent α)
    (TriangleMesh : FTriangleMesh α) (h : IndicesInRange TriangleMesh) (Volume : α) :
    addMeshVolume (some Component) Volume TriangleMesh =
      some (Volume + tripleSum Component.TransformPosition TriangleMesh.Vertices
        TriangleMesh.TriangleVertexIndices) := by
  rw [addMeshVolume_eq_sum Component TriangleMesh h Volume,
    sum_range_eq_tripleSum Component.TransformPosition TriangleMesh.Vertices _
      TriangleMesh.TriangleVertexIndices rfl]

theorem tripleSum_quad_append (T : FVector α → FVector α) (Vertices : List (FVector α))
    (diagonal : Bool) (a b c e : Int) (rest : List Int) :
    tripleSum T Vertices (quadTriangles diagonal a b c e ++ rest) =
      tripleSum T Vertices (quadTriangles diagonal a b c e) + tripleSum T Vertices rest := by
  cases diagonal <;> simp [quadTriangles, tripleSum, add_assoc]

theorem mem_quadTriangles (diagonal : Bool) (a b c e k : Int)
    (h : k ∈ quadTriangles diagonal a b c e) : k = a ∨ k = b ∨ k = c ∨ k = e := by
  cases diagonal <;> simp [quadTriangles] at h <;> omega

theorem unitCubeIndices_inRange (diagonal : Fin 6 → Bool) (k : Int)
    (h : k ∈ unitCubeIndices diagonal) : 0 ≤ k ∧ k < 8 := by
  unfold unitCubeIndices at h
  simp only [List.mem_append] at h
  rcases h with ((((h | h) | h) | h) | h) | h <;>
    rcases mem_quadTriangles _ _ _ _ _ _ h with hq | hq | hq | hq <;> omega

end CubeLemmas

section CubeClaims

open TMathUtilities TMeshUtilities

variable {α : Type} [LinearOrderedField α]

theorem tripleSum_cube_face (T : FVector α → FVector α) (r1 r2 r3 t : FVector α)
    (hT : ∀ v : FVector α,
      T v = ⟨DotProduct r1 v + t.X, DotProduct r2 v + t.Y, DotProduct r3 v + t.Z⟩)
    (diagonal : Bool) :
    tripleSum T unitCubeVertices (quadTriangles diagonal 0 3 2 1) =
        tripleSum T unitCubeVertices (quadTriangles false 0 3 2 1) ∧
      tripleSum T unitCubeVertices (quadTriangles diagonal 4 5 6 7) =
        tripleSum T unitCubeVertices (quadTriangles false 4 5 6 7) ∧
      tripleSum T unitCubeVertices (quadTriangles diagonal 0 1 5 4) =
        tripleSum T unitCubeVertices (quadTriangles false 0 1 5 4) ∧
      tripleSum T unitCubeVertices (quadTriangles diagonal 3 7 6 2) =
        tripleSum T unitCubeVertices (quadTriangles false 3 7 6 2) ∧
      tripleSum T unitCubeVertices (quadTriangles diagonal 0 4 7 3) =
        tripleSum T unitCubeVertices (quadTriangles false 0 4 7 3) ∧
      tripleSum T unitCubeVertices (quadTriangles diagonal 1 2 6 5) =
        tripleSum T unitCubeVertices (quadTriangles false 1 2 6 5) := by
  cases diagonal
  · exact ⟨rfl, rfl, rfl, rfl, rfl, rfl⟩
  · have e1 : Int.toNat 1 = 1 := rfl
    have e2 : Int.toNat 2 = 2 := rfl
    have e3 : Int.toNat 3 = 3 := rfl
    have e4 : Int.toNat 4 = 4 := rfl
    have e5 : Int.toNat 5 = 5 := rfl
    have e6 : Int.toNat 6 = 6 := rfl
    have e7 : Int.toNat 7 = 7 := rfl
    refine ⟨?_, ?_, ?_, ?_, ?_, ?_⟩ <;>
    · simp only [quadTriangles, tripleSum, vertexOr0, unitCubeVertices, hT,
        SignedVolumeOfTriangle, DotProduct, e1, e2, e3, e4, e5, e6, e7, Int.toNat_zero,
        List.getD_cons_zero, List.getD_cons_succ, if_true, if_false]
      simp
      ring

theorem tripleSum_unitCube (T : FVector α → FVector α) (r1 r2 r3 t : FVector α)
    (hT : ∀ v : FVector α,
      T v = ⟨DotProduct r1 v + t.X, DotProduct r2 v + t.Y, DotProduct r3 v + t.Z⟩)
    (diagonal : Fin 6 → Bool) :
    tripleSum T unitCubeVertices (unitCubeIndices diagonal) = -tripleProduct r1 r2 r3 := by
  unfold unitCubeIndices
  simp only [List.append_assoc, tripleSum_quad_append]
  rw [(tripleSum_cube_face T r1 r2 r3 t hT (diagonal 0)).1,
    (tripleSum_cube_face T r1 r2 r3 t hT (diagonal 1)).2.1,
    (tripleSum_cube_face T r1 r2 r3 t hT (diagonal 2)).2.2.1,
    (tripleSum_cube_face T r1 r2 r3 t hT (diagonal 3)).2.2.2.1,
    (tripleSum_cube_face T r1 r2 r3 t hT (diagonal 4)).2.2.2.2.1,
    (tripleSum_cube_face T r1 r2 r3 t hT (diagonal 5)).2.2.2.2.2]
  have e1 : Int.toNat 1 = 1 := rfl
  have e2 : Int.toNat 2 = 2 := rfl
  have e3 : Int.toNat 3 = 3 := rfl
  have e4 : Int.toNat 4 = 4 := rfl
  have e5 : Int.toNat 5 = 5 := rfl
  have e6 : Int.toNat 6 = 6 := rfl
  have e7 : Int.toNat 7 = 7 := rfl
  simp only [quadTriangles, tripleSum, vertexOr0, unitCubeVertices, hT,
    SignedVolumeOfTriangle, DotProduct, CrossProduct, tripleProduct, e1, e2, e3, e4, e5, e6, e7,
    Int.toNat_zero, List.getD_cons_zero, List.getD_cons_succ, if_true, if_false]
  simp
  ring

theorem unitCube_inRange (diagonal : Fin 6 → Bool) :
    IndicesInRange (unitCube diagonal false : FTriangleMesh α) := by
  intro k hk
  have h := unitCubeIndices_inRange diagonal k (by simpa [unitCube] using hk)
  simpa [unitCube, unitCubeVertices] using h

theorem unitCube_reversed (diagonal : Fin 6 → Bool) :
    (unitCube diagonal true : FTriangleMesh α) = reverseMesh (unitCube diagonal false) := by
  simp [unitCube, reverseMesh]

/-- C4: for the unit cube mesh (8 vertices, 12 consistently wound triangles, any choice of the
diagonal of each face, either winding) and every rigid transform of the component (any
rotation, any translation), `MeshVolume` returns 1. -/
theorem MeshVolume_unitCube_rigid (WITH_EDITOR : Bool) (Component : UStaticMeshComponent α)
    (diagonal : Fin 6 → Bool) (reversed : Bool)
    (hExtract :
      GetTriangleMeshes WITH_EDITOR (some Component) = some [unitCube diagonal reversed])
    (hRigid : IsRigidTransform Component.TransformPosition) :
    MeshVolume WITH_EDITOR (some Component) = some 1 := by
  obtain ⟨r1, r2, r3, t, -, -, -, -, -, -, hdet, hT⟩ := hRigid
  have hsum := tripleSum_unitCube Component.TransformPosition r1 r2 r3 t hT diagonal
  have hplain : addMeshVolume (some Component) 0 (unitCube diagonal false) = some (-1) := by
    rw [addMeshVolume_eq_tripleSum Component _ (unitCube_inRange diagonal) 0]
    have hv : (unitCube diagonal false : FTriangleMesh α).Vertices = unitCubeVertices := rfl
    have hi : (unitCube diagonal false : FTriangleMesh α).TriangleVertexIndices =
        unitCubeIndices diagonal := by simp [unitCube]
    rw [hv, hi, hsum, hdet, zero_add]
  rw [MeshVolume_of_extract WITH_EDITOR Component _ hExtract]
  cases reversed with
  | false => rw [hplain]; simp
  | true =>
    have h := addMeshVolume_reverseMesh (some Component) (unitCube diagonal false) 0
    rw [neg_zero, hplain] at h
    rw [unitCube_reversed, h]
    simp

/-- C4 at the unit cube rotated about the Z axis (cosine `3 / 5`, sine `4 / 5`) and translated
by `(5, -7, 11)`. -/
theorem MeshVolume_unitCube_rigid_witness :
    MeshVolume true (some rotatedCubeComponent) = some (1 : ℚ) :=
  MeshVolume_unitCube_rigid true rotatedCubeComponent (fun _ => true) false (by rfl)
    ⟨⟨3 / 5, -4 / 5, 0⟩, ⟨4 / 5, 3 / 5, 0⟩, ⟨0, 0, 1⟩, ⟨5, -7, 11⟩,
      by norm_num [DotProduct], by norm_num [DotProduct], by norm_num [DotProduct],
      by norm_num [DotProduct], by norm_num [DotProduct], by norm_num [DotProduct],
      by norm_num [tripleProduct, DotProduct, CrossProduct],
      by
        intro v
        simp only [rotatedCubeComponent, DotProduct]
        congr 1 <;> ring⟩

end CubeClaims

/-! ## Force pipeline: claims -/

section PipelineClaims

open UBuoyantMeshComponent TMeshUtilities

theorem isFinite_of_isNaNOrInfinite (x : FFloat) (h : IsNaNOrInfinite x) :
    x.IsFinite = false := by
  rcases h with h | h | h <;> subst h <;> rfl

theorem ApplyMeshForce_eq (This : UBuoyantMeshComponent) (Force : FForce)
    (Sink : List FAddForceAtLocation) :
    ApplyMeshForce This Force Sink =
      if (vectorToApply This Force).IsNearlyZero || (vectorToApply This Force).ContainsNaN
      then Sink else Sink ++ [⟨vectorToApply This Force, Force.Point⟩] := by
  have h : ApplyMeshForce This Force Sink =
      if (!(!(vectorToApply This Force).IsNearlyZero &&
          !(vectorToApply This Force).ContainsNaN)) = true
      then Sink else Sink ++ [⟨vectorToApply This Force, Force.Point⟩] := rfl
  rw [h]
  cases (vectorToApply This Force).IsNearlyZero <;>
    cases (vectorToApply This Force).ContainsNaN <;> rfl

/-- C2: a force whose vector to apply (after the optional vertical-only projection) has zero
length, or has a NaN or infinite component, does not reach the sink: `ApplyMeshForce` makes
no call of `AddForceAtLocation` for it. -/
theorem ApplyMeshForce_discards_zero_and_nonfinite (This : UBuoyantMeshComponent)
    (Force : FForce) (Sink : List FAddForceAtLocation)
    (h : vectorToApply This Force = ZeroVector ∨
      IsNaNOrInfinite (vectorToApply This Force).X ∨
      IsNaNOrInfinite (vectorToApply This Force).Y ∨
      IsNaNOrInfinite (vectorToApply This Force).Z) :
    ApplyMeshForce This Force Sink = Sink := by
  rw [ApplyMeshForce_eq]
  have hbad : ((vectorToApply This Force).IsNearlyZero ||
      (vectorToApply This Force).ContainsNaN) = true := by
    rcases h with h | h | h | h
    · rw [h]; decide!
    · simp [FVector.ContainsNaN, isFinite_of_isNaNOrInfinite _ h]
    · simp [FVector.ContainsNaN, isFinite_of_isNaNOrInfinite _ h]
    · simp [FVector.ContainsNaN, isFinite_of_isNaNOrInfinite _ h]
  rw [if_pos hbad]

/-- C2 at a force with a NaN component, on a sink that already holds one call. -/
theorem ApplyMeshForce_discards_zero_and_nonfinite_witness :
    ApplyMeshForce sunkComponent nanForce [sunkTriangleCall] = [sunkTriangleCall] :=
  ApplyMeshForce_discards_zero_and_nonfinite sunkComponent nanForce [sunkTriangleCall]
    (Or.inr (Or.inr (Or.inl (Or.inl rfl))))

/-- C5: `ApplyMeshForce` appends at most one call to the sink; the call is made at the force's
own application point; with `bVerticalForcesOnly` set its vector has X and Y equal to zero
and the Z of the computed force, with the flag clear it is the computed vector unchanged; a
vector that is neither nearly zero nor non-finite is passed. -/
theorem ApplyMeshForce_vertical_projection (This : UBuoyantMeshComponent) (Force : FForce)
    (Sink : List FAddForceAtLocation) :
    ∃ Passed : List FAddForceAtLocation,
      ApplyMeshForce This Force Sink = Sink ++ Passed ∧ Passed.length ≤ 1 ∧
      (∀ Call ∈ Passed, Call.Location = Force.Point ∧
        (This.bVerticalForcesOnly = true →
          Call.Force.X = FFloat.fin 0 ∧ Call.Force.Y = FFloat.fin 0 ∧
            Call.Force.Z = Force.Vector.Z) ∧
        (This.bVerticalForcesOnly = false → Call.Force = Force.Vector)) ∧
      ((vectorToApply This Force).IsNearlyZero = false →
        (vectorToApply This Force).ContainsNaN = false → Passed.length = 1) := by
  rw [ApplyMeshForce_eq]
  by_cases hbad : ((vectorToApply This Force).IsNearlyZero ||
      (vectorToApply This Force).ContainsNaN) = true
  · refine ⟨[], by rw [if_pos hbad]; simp, by simp, by simp, ?_⟩
    intro h1 h2
    rw [h1, h2] at hbad
    simp at hbad
  · refine ⟨[⟨vectorToApply This Force, Force.Point⟩], by rw [if_neg hbad], by simp, ?_,
      by simp⟩
    intro Call hCall
    simp only [List.mem_singleton] at hCall
    subst hCall
    refine ⟨rfl, ?_, ?_⟩
    · intro hflag
      simp [vectorToApply, hflag]
    · intro hflag
      simp [vectorToApply, hflag]

/-- C6, the claim as stated fails: for the sub-triangle whose corners coincide at `(1, 1, 1)`
the area is zero and the centroid is `(1, 1, 1)`, yet the returned application point is the
origin. -/
theorem GetSubmergedTriangleForce_point_not_centroid :
    FMath.IsNearlyZero ((SpecModel.stillWater Rat.sqrt).GetArea pointSubtriangle) = true ∧
      (SpecModel.stillWater Rat.sqrt).GetCenter pointSubtriangle =
        ⟨FFloat.fin 1, FFloat.fin 1, FFloat.fin 1⟩ ∧
      (GetSubmergedTriangleForce (SpecModel.stillWater Rat.sqrt) sunkComponent pointSubtriangle
        ZeroVector).Point = ⟨FFloat.fin 0, FFloat.fin 0, FFloat.fin 0⟩ ∧
      (GetSubmergedTriangleForce (SpecModel.stillWater Rat.sqrt) sunkComponent pointSubtriangle
        ZeroVector).Point ≠ (SpecModel.stillWater Rat.sqrt).GetCenter pointSubtriangle := by
  decide!

/-- C6 as amended: for every sub-triangle whose area `A` is not negative and at most the
tolerance `SMALL_NUMBER`, `GetSubmergedTriangleForce` returns the zero vector as the force
and the zero vector (the origin) as the application point. -/
theorem GetSubmergedTriangleForce_nearly_zero_area (E : FEnvironment)
    (This : UBuoyantMeshComponent) (Subtriangle : FBuoyantMeshSubtriangle)
    (TriangleNormal : FVec) (A : ℚ) (hArea : E.GetArea Subtriangle = FFloat.fin A)
    (hNonneg : 0 ≤ A) (hSmall : A ≤ SMALL_NUMBER) :
    GetSubmergedTriangleForce E This Subtriangle TriangleNormal = ⟨ZeroVector, ZeroVector⟩ := by
  have hzero : FMath.IsNearlyZero (E.GetArea Subtriangle) = true := by
    rw [hArea]
    simp [FMath.IsNearlyZero, FFloat.abs, FFloat.le, abs_of_nonneg hNonneg, hSmall]
  unfold GetSubmergedTriangleForce
  simp only [hzero, if_true]

/-- C6 as amended, at the sub-triangle whose corners coincide at `(1, 1, 1)`. -/
theorem GetSubmergedTriangleForce_nearly_zero_area_witness :
    GetSubmergedTriangleForce (SpecModel.stillWater Rat.sqrt) sunkComponent pointSubtriangle
      ZeroVector = ⟨ZeroVector, ZeroVector⟩ :=
  GetSubmergedTriangleForce_nearly_zero_area (SpecModel.stillWater Rat.sqrt) sunkComponent
    pointSubtriangle ZeroVector 0 (by decide!) (le_refl 0) (by norm_num [SMALL_NUMBER])

/-- C7, the failing input: two ticks in which the updated component does not simulate
physics. The first tick only initialises and leaves the sink empty; the second runs
`ApplyMeshForces` and a force reaches the sink. In general a first tick without a valid,
simulating updated component leaves the sink as it was, and a tick of an initialised
component is `ApplyMeshForces`, whatever the engine reports about the updated component. -/
theorem TickComponent_second_tick_applies_forces :
    idleWorld.UpdatedComponentIsSimulatingPhysics = false ∧
      (TickSequence [idleWorld] (freshComponent, [])).map Prod.snd = some [] ∧
      (TickSequence [idleWorld, idleWorld] (freshComponent, [])).map Prod.snd =
        some [sunkTriangleCall] ∧
      (∀ (W : FWorld) (This : UBuoyantMeshComponent) (Sink : List FAddForceAtLocation)
        (After : UBuoyantMeshComponent × List FAddForceAtLocation),
        This.bHasInitialized = false →
        (W.UpdatedComponentIsValid = false ∨ W.UpdatedComponentIsSimulatingPhysics = false) →
        TickComponent W This Sink = some After → After.2 = Sink) ∧
      (∀ (W : FWorld) (This : UBuoyantMeshComponent) (Sink : List FAddForceAtLocation),
        This.bHasInitialized = true →
        TickComponent W This Sink =
          (ApplyMeshForces W.toFEnvironment This Sink).map fun Sink => (This, Sink)) := by
  refine ⟨by decide!, by decide!, by decide!, ?_, ?_⟩
  · intro W This Sink After hInit hBad hTick
    unfold TickComponent at hTick
    have hgate : (!W.UpdatedComponentIsValid || !W.UpdatedComponentIsSimulatingPhysics) =
        true := by
      rcases hBad with h | h <;> simp [h]
    simp only [hInit, Bool.not_false, if_true, hgate] at hTick
    cases hI : Initialize W This with
    | none => rw [hI] at hTick; simp at hTick
    | some Initialized =>
      rw [hI] at hTick
      simp only [Option.some_bind, Option.some.injEq] at hTick
      rw [← hTick]
  · intro W This Sink hInit
    unfold TickComponent
    simp [hInit]

/-- C8, the claim as stated fails: with no valid ocean manager, a step over one triangle lying
below the plane `Z = 0` applies a force. -/
theorem ApplyMeshForces_without_ocean_manager_applies_force :
    sunkComponent.OceanManager = false ∧
      ApplyMeshForces (SpecModel.stillWater Rat.sqrt) sunkComponent [] = some [sunkTriangleCall] := by
  decide!

/-- C8 as amended: with no valid ocean manager every height query returns the position's own
`Z` minus zero, and a step computes exactly what it computes for a valid ocean manager whose
wave height is zero everywhere (no water patch): the water surface is taken as the plane
`Z = 0`. -/
theorem ApplyMeshForces_without_ocean_manager (E : FEnvironment)
    (This : UBuoyantMeshComponent) (Sink : List FAddForceAtLocation)
    (hNoOcean : This.OceanManager = false) :
    (∀ Position : FVec,
        GetHeightAboveWater E This Position = Position.Z.sub (FFloat.fin 0)) ∧
      ApplyMeshForces E This Sink =
        ApplyMeshForces { E with GetWaveHeight := fun _ => FFloat.fin 0 }
          { This with OceanManager := true, bUseWaterPatch := false } Sink := by
  have hHeight : ∀ Position : FVec,
      GetHeightAboveWater E This Position = Position.Z.sub (FFloat.fin 0) := by
    intro Position
    simp [GetHeightAboveWater, hNoOcean]
  refine ⟨hHeight, ?_⟩
  have hHeight2 : GetHeightAboveWater { E with GetWaveHeight := fun _ => FFloat.fin 0 }
      { This with OceanManager := true, bUseWaterPatch := false } =
      GetHeightAboveWater E This := by
    funext Position
    rw [hHeight]
    simp [GetHeightAboveWater]
  have hForce : GetSubmergedTriangleForce { E with GetWaveHeight := fun _ => FFloat.fin 0 }
      { This with OceanManager := true, bUseWaterPatch := false } =
      GetSubmergedTriangleForce E This := by
    funext Subtriangle TriangleNormal
    simp only [GetSubmergedTriangleForce, hHeight2]
  have hApply : ApplyMeshForce { This with OceanManager := true, bUseWaterPatch := false } =
      ApplyMeshForce This := by
    funext Force Sink
    rfl
  have hTriangle : applyTriangleForces { E with GetWaveHeight := fun _ => FFloat.fin 0 }
      { This with OceanManager := true, bUseWaterPatch := false } =
      applyTriangleForces E This := by
    funext Vertices TriangleMesh Sink i
    simp only [applyTriangleForces, hForce, hApply]
  have hMesh : applyMeshForcesOfMesh { E with GetWaveHeight := fun _ => FFloat.fin 0 }
      { This with OceanManager := true, bUseWaterPatch := false } =
      applyMeshForcesOfMesh E This := by
    funext Sink TriangleMesh
    simp only [applyMeshForcesOfMesh, hTriangle, hHeight2]
  simp only [ApplyMeshForces, hMesh]

/-- C8 as amended, at the component without ocean manager that holds one sunk triangle. -/
theorem ApplyMeshForces_without_ocean_manager_witness :
    ApplyMeshForces (SpecModel.stillWater Rat.sqrt) sunkComponent [] =
      ApplyMeshForces
        { SpecModel.stillWater Rat.sqrt with GetWaveHeight := fun _ => FFloat.fin 0 }
        { sunkComponent with OceanManager := true, bUseWaterPatch := false } [] :=
  (ApplyMeshForces_without_ocean_manager (SpecModel.stillWater Rat.sqrt) sunkComponent [] rfl).2

theorem applyMeshForcesOfMesh_empty (E : FEnvironment) (This : UBuoyantMeshComponent)
    (Sink : List FAddForceAtLocation) (TriangleMesh : FTriangleMesh FFloat)
    (h : IsEmptyMesh TriangleMesh) : applyMeshForcesOfMesh E This Sink TriangleMesh = some Sink := by
  obtain ⟨hv, hi⟩ := h
  simp [applyMeshForcesOfMesh, hv, hi]

theorem foldlM_applyMeshForcesOfMesh_empty (E : FEnvironment) (This : UBuoyantMeshComponent) :
    ∀ (Meshes : List (FTriangleMesh FFloat)) (Sink : List FAddForceAtLocation),
      (∀ TriangleMesh ∈ Meshes, IsEmptyMesh TriangleMesh) →
      Meshes.foldlM (applyMeshForcesOfMesh E This) Sink = some Sink
  | [], Sink, _ => rfl
  | TriangleMesh :: Rest, Sink, h => by
    rw [List.foldlM_cons, applyMeshForcesOfMesh_empty E This Sink TriangleMesh
      (h TriangleMesh (List.mem_cons_self _ _))]
    exact foldlM_applyMeshForcesOfMesh_empty E This Rest Sink
      (fun m hm => h m (List.mem_cons_of_mem _ hm))

/-- C9: when the component holds no extracted mesh, or only meshes with no vertices and no
triangle indices, `ApplyMeshForces` completes without a failed range check and leaves the
sink as it was, whatever the environment; each such mesh has zero triangles to visit; and
`GetTriangleMeshes` yields no mesh for a null component or a mesh without CPU access outside
the editor, and one empty mesh for a static mesh without sections. -/
theorem ApplyMeshForces_empty_mesh (E : FEnvironment) (This : UBuoyantMeshComponent)
    (Sink : List FAddForceAtLocation)
    (hEmpty : ∀ TriangleMesh ∈ This.TriangleMeshes, IsEmptyMesh TriangleMesh) :
    ApplyMeshForces E This Sink = some Sink ∧
      (∀ TriangleMesh ∈ This.TriangleMeshes,
        TriangleMesh.TriangleVertexIndices.length / 3 = 0 ∧ TriangleMesh.Vertices.length = 0) ∧
      (∀ WITH_EDITOR : Bool,
        GetTriangleMeshes WITH_EDITOR (none : Option (UStaticMeshComponent FFloat)) = some []) ∧
      (∀ (Component : UStaticMeshComponent FFloat) (Mesh : UStaticMesh FFloat),
        Component.StaticMesh = some Mesh → Mesh.bAllowCPUAccess = false →
          GetTriangleMeshes false (some Component) = some []) ∧
      (∀ (WITH_EDITOR : Bool) (Component : UStaticMeshComponent FFloat)
        (Mesh : UStaticMesh FFloat) (Meshes : List (FTriangleMesh FFloat)),
        Component.StaticMesh = some Mesh → Mesh.Sections = [] →
          GetTriangleMeshes WITH_EDITOR (some Component) = some Meshes →
            ∀ TriangleMesh ∈ Meshes, IsEmptyMesh TriangleMesh) := by
  refine ⟨foldlM_applyMeshForcesOfMesh_empty E This This.TriangleMeshes Sink hEmpty, ?_,
    fun _ => rfl, ?_, ?_⟩
  · intro TriangleMesh hMem
    obtain ⟨hv, hi⟩ := hEmpty TriangleMesh hMem
    simp [hv, hi]
  · intro Component Mesh hMesh hAccess
    simp [GetTriangleMeshes, hMesh, hAccess]
  · intro WITH_EDITOR Component Mesh Meshes hMesh hSections hExtract TriangleMesh hMem
    simp only [GetTriangleMeshes, hMesh, hSections, List.foldl_nil] at hExtract
    split at hExtract
    · simp only [Option.some.injEq] at hExtract
      subst hExtract
      simp at hMem
    · simp only [Option.some.injEq] at hExtract
      subst hExtract
      simp only [List.mem_singleton] at hMem
      subst hMem
      exact ⟨rfl, rfl⟩

/-- C9 at a component that holds two empty meshes, with a sink that already holds a call. -/
theorem ApplyMeshForces_empty_mesh_witness :
    ApplyMeshForces (SpecModel.stillWater Rat.sqrt) emptyMeshComponent [sunkTriangleCall] =
      some [sunkTriangleCall] :=
  (ApplyMeshForces_empty_mesh (SpecModel.stillWater Rat.sqrt) emptyMeshComponent [sunkTriangleCall]
    (by
      intro TriangleMesh hMem
      simp only [emptyMeshComponent, List.mem_cons, List.mem_singleton, List.mem_nil_iff,
        or_false, or_self] at hMem
      subst hMem
      exact ⟨rfl, rfl⟩)).1

end PipelineClaims

/-! ## Archimedes property of the hydrostatic forces -/

section ArchimedesLemmas

open UBuoyantMeshComponent SpecModel

theorem foldlM_range_of_some {σ : Type} (body : σ → Nat → Option σ) (step : σ → Nat → σ) :
    ∀ (n : Nat), (∀ s i, i < n → body s i = some (step s i)) →
      ∀ s, (List.range n).foldlM body s = some ((List.range n).foldl step s) := by
  intro n
  induction n with
  | zero => intro _ s; rfl
  | succ n ih =>
    intro h s
    rw [List.range_succ, List.foldlM_append, ih (fun s i hi => h s i (by omega)) s,
      List.foldl_append]
    simp only [Option.some_bind, Option.bind_eq_bind, List.foldlM_cons, List.foldlM_nil,
      List.foldl_cons, List.foldl_nil]
    rw [h _ n (by omega)]
    rfl

theorem arrayAt_map_of_inRange {β γ : Type} (f : β → γ) (xs : List β) (j : Int) (d : β)
    (h : 0 ≤ j ∧ j < (xs.length : Int)) :
    arrayAt (xs.map f) j = some (f (xs.getD j.toNat d)) := by
  unfold arrayAt
  rw [List.length_map, if_pos h]
  have hlt : j.toNat < xs.length := by omega
  simp [List.getD, List.getElem?_eq_getElem hlt]

theorem foldl_range_eq_foldl_worldTriangles {σ : Type} (World : List (FVector ℚ))
    (g : σ → WorldTriangle → σ) :
    ∀ (n : Nat) (l : List Int) (s : σ), l.length / 3 = n →
      (List.range n).foldl (fun s i =>
          g s (vertexOr0 World (l.getD (i * 3 + 0) 0), vertexOr0 World (l.getD (i * 3 + 1) 0),
            vertexOr0 World (l.getD (i * 3 + 2) 0))) s =
        (worldTriangles World l).foldl g s := by
  intro n
  induction n with
  | zero =>
    intro l s hl
    match l, hl with
    | [], _ => rfl
    | [_], _ => rfl
    | [_, _], _ => rfl
    | a :: b :: c :: rest, hl => simp only [List.length_cons] at hl; omega
  | succ n ih =>
    intro l s hl
    match l, hl with
    | [], hl => simp only [List.length_nil] at hl; omega
    | [_], hl => simp only [List.length_cons, List.length_nil] at hl; omega
    | [_, _], hl => simp only [List.length_cons, List.length_nil] at hl; omega
    | a :: b :: c :: rest, hl =>
      have hr : rest.length / 3 = n := by simp only [List.length_cons] at hl; omega
      rw [List.range_succ_eq_map, List.foldl_cons, List.foldl_map, worldTriangles,
        List.foldl_cons, ← ih rest _ hr]
      have e0 : ∀ i : Nat, (i + 1) * 3 + 0 = (i * 3 + 0) + 3 := fun i => by ring
      have e1 : ∀ i : Nat, (i + 1) * 3 + 1 = (i * 3 + 1) + 3 := fun i => by ring
      have e2 : ∀ i : Nat, (i + 1) * 3 + 2 = (i * 3 + 2) + 3 := fun i => by ring
      simp only [Nat.succ_eq_add_one, e0, e1, e2]
      simp [List.getD]

theorem GetHeightAboveWater_stillWater (Sqrt : ℚ → ℚ) (This : UBuoyantMeshComponent)
    (Position : FVec) :
    GetHeightAboveWater (stillWater Sqrt) This Position = Position.Z.sub (FFloat.fin 0) := by
  unfold GetHeightAboveWater
  cases This.OceanManager <;> cases (This.bUseWaterPatch && This.WaterHeightmap) <;> rfl

theorem GetHeightAboveWater_ofRat (Sqrt : ℚ → ℚ) (This : UBuoyantMeshComponent)
    (w : FVector ℚ) :
    GetHeightAboveWater (stillWater Sqrt) This (ofRat w) = FFloat.fin w.Z := by
  rw [GetHeightAboveWater_stillWater]
  simp [ofRat, FFloat.sub, FFloat.add, FFloat.neg]

theorem buoyantVertices_eq (Sqrt : ℚ → ℚ) (This : UBuoyantMeshComponent)
    (TriangleMesh : FTriangleMesh FFloat) (World : List (FVector ℚ))
    (hWorld : TriangleMesh.Vertices.map This.TransformPosition = World.map ofRat) :
    (TriangleMesh.Vertices.map fun Vertex =>
      (⟨This.TransformPosition Vertex,
        GetHeightAboveWater (stillWater Sqrt) This (This.TransformPosition Vertex)⟩ :
        FBuoyantMeshVertex)) = World.map stillWaterVertex := by
  have h1 : (TriangleMesh.Vertices.map fun Vertex =>
      (⟨This.TransformPosition Vertex,
        GetHeightAboveWater (stillWater Sqrt) This (This.TransformPosition Vertex)⟩ :
        FBuoyantMeshVertex)) =
      (TriangleMesh.Vertices.map This.TransformPosition).map fun P =>
        (⟨P, GetHeightAboveWater (stillWater Sqrt) This P⟩ : FBuoyantMeshVertex) := by
    rw [List.map_map]
    rfl
  rw [h1, hWorld, List.map_map]
  apply List.map_congr_left
  intro w _
  simp [stillWaterVertex, GetHeightAboveWater_ofRat]

theorem buoyantVertexOfIndex_eq (World : List (FVector ℚ)) (TriangleMesh : FTriangleMesh FFloat)
    (hRange : ∀ k ∈ TriangleMesh.TriangleVertexIndices, 0 ≤ k ∧ k < (World.length : Int))
    (k : Nat) (hk : k < TriangleMesh.TriangleVertexIndices.length) :
    buoyantVertexOfIndex (World.map stillWaterVertex) TriangleMesh k =
      some (stillWaterVertex (vertexOr0 World (TriangleMesh.TriangleVertexIndices.getD k 0))) := by
  unfold buoyantVertexOfIndex vertexOr0
  rw [arrayAt_natCast_eq, List.getElem?_eq_getElem hk]
  have hget : TriangleMesh.TriangleVertexIndices.getD k 0 =
      TriangleMesh.TriangleVertexIndices[k] := by
    simp [List.getD, List.getElem?_eq_getElem hk]
  have hmem : TriangleMesh.TriangleVertexIndices[k] ∈ TriangleMesh.TriangleVertexIndices :=
    List.getElem_mem hk
  simp only [Option.some_bind]
  rw [hget]
  exact arrayAt_map_of_inRange stillWaterVertex World _ _ (hRange _ hmem)

theorem applyMeshForcesOfMesh_stillWater (Sqrt : ℚ → ℚ) (This : UBuoyantMeshComponent)
    (TriangleMesh : FTriangleMesh FFloat) (World : List (FVector ℚ))
    (hWorld : TriangleMesh.Vertices.map This.TransformPosition = World.map ofRat)
    (hRange : ∀ k ∈ TriangleMesh.TriangleVertexIndices, 0 ≤ k ∧ k < (World.length : Int))
    (Sink : List FAddForceAtLocation) :
    applyMeshForcesOfMesh (stillWater Sqrt) This Sink TriangleMesh =
      some ((worldTriangles World TriangleMesh.TriangleVertexIndices).foldl
        (applyWorldTriangle Sqrt This) Sink) := by
  unfold applyMeshForcesOfMesh
  simp only [buoyantVertices_eq Sqrt This TriangleMesh World hWorld]
  rw [foldlM_range_of_some _
    (fun s i => applyWorldTriangle Sqrt This s
      (vertexOr0 World (TriangleMesh.TriangleVertexIndices.getD (i * 3 + 0) 0),
        vertexOr0 World (TriangleMesh.TriangleVertexIndices.getD (i * 3 + 1) 0),
        vertexOr0 World (TriangleMesh.TriangleVertexIndices.getD (i * 3 + 2) 0)))]
  · rw [foldl_range_eq_foldl_worldTriangles World (applyWorldTriangle Sqrt This) _ _ _ rfl]
  · intro s i hi
    unfold applyTriangleForces
    rw [buoyantVertexOfIndex_eq World TriangleMesh hRange _ (by omega),
      buoyantVertexOfIndex_eq World TriangleMesh hRange _ (by omega),
      buoyantVertexOfIndex_eq World TriangleMesh hRange _ (by omega)]
    rfl

theorem toRat?_ofRat (w : FVector ℚ) : toRat? (ofRat w) = some w := rfl

theorem SortVerticesByHeight_perm (A B C : FBuoyantMeshVertex) :
    SortVerticesByHeight A B C = (A, B, C) ∨ SortVerticesByHeight A B C = (A, C, B) ∨
      SortVerticesByHeight A B C = (B, A, C) ∨ SortVerticesByHeight A B C = (B, C, A) ∨
      SortVerticesByHeight A B C = (C, A, B) ∨ SortVerticesByHeight A B C = (C, B, A) := by
  unfold SortVerticesByHeight
  by_cases h1 : lt A.Height B.Height = true <;> by_cases h2 : lt A.Height C.Height = true <;>
    by_cases h3 : lt B.Height C.Height = true <;> by_cases h4 : lt B.Height A.Height = true <;>
    simp [h1, h2, h3, h4]

theorem SortVerticesByHeight_stillWater (a b c : FVector ℚ) :
    ∃ x y z : FVector ℚ, IsCornerPerm a b c x y z ∧
      SortVerticesByHeight (stillWaterVertex a) (stillWaterVertex b) (stillWaterVertex c) =
        (stillWaterVertex x, stillWaterVertex y, stillWaterVertex z) := by
  unfold IsCornerPerm
  rcases SortVerticesByHeight_perm (stillWaterVertex a) (stillWaterVertex b)
    (stillWaterVertex c) with h | h | h | h | h | h
  · exact ⟨a, b, c, by simp, h⟩
  · exact ⟨a, c, b, by simp, h⟩
  · exact ⟨b, a, c, by simp, h⟩
  · exact ⟨b, c, a, by simp, h⟩
  · exact ⟨c, a, b, by simp, h⟩
  · exact ⟨c, b, a, by simp, h⟩

theorem GetSubmergedPortion_sunk (Normal : FVec) (x y z : FVector ℚ) (hx : x.Z ≤ 0)
    (hy : y.Z ≤ 0) (hz : z.Z ≤ 0) :
    GetSubmergedPortion ⟨Normal, stillWaterVertex x, stillWaterVertex y, stillWaterVertex z⟩ =
      [⟨ofRat x, ofRat y, ofRat z⟩] := by
  simp [GetSubmergedPortion, stillWaterVertex, lt, FFloat.le, hx, hy, hz]

theorem IsCornerPerm_sunk (a b c x y z : FVector ℚ) (h : IsCornerPerm a b c x y z)
    (ha : a.Z ≤ 0) (hb : b.Z ≤ 0) (hc : c.Z ≤ 0) : x.Z ≤ 0 ∧ y.Z ≤ 0 ∧ z.Z ≤ 0 := by
  unfold IsCornerPerm at h
  simp only [Prod.mk.injEq] at h
  rcases h with h | h | h | h | h | h <;>
  · obtain ⟨hx, hy, hz⟩ := h
    rw [hx, hy, hz]
    exact ⟨by assumption, by assumption, by assumption⟩

theorem applyWorldTriangle_eq (Sqrt : ℚ → ℚ) (This : UBuoyantMeshComponent)
    (Sink : List FAddForceAtLocation) (a b c : FVector ℚ) (ha : a.Z ≤ 0) (hb : b.Z ≤ 0)
    (hc : c.Z ≤ 0) :
    ∃ x y z : FVector ℚ, IsCornerPerm a c b x y z ∧
      applyWorldTriangle Sqrt This Sink (a, b, c) =
        ApplyMeshForce This
          (GetSubmergedTriangleForce (stillWater Sqrt) This ⟨ofRat x, ofRat y, ofRat z⟩
            (ofRat (unitNormal Sqrt a c b))) Sink := by
  obtain ⟨x, y, z, hperm, hsort⟩ := SortVerticesByHeight_stillWater a c b
  obtain ⟨hx, hy, hz⟩ := IsCornerPerm_sunk a c b x y z hperm ha hc hb
  refine ⟨x, y, z, hperm, ?_⟩
  have hT : (stillWater Sqrt).FromClockwiseVertices (stillWaterVertex a) (stillWaterVertex c)
      (stillWaterVertex b) =
      ⟨ofRat (unitNormal Sqrt a c b), stillWaterVertex x, stillWaterVertex y,
        stillWaterVertex z⟩ := by
    show SpecModel.FromClockwiseVertices Sqrt (stillWaterVertex a) (stillWaterVertex c)
      (stillWaterVertex b) = _
    unfold SpecModel.FromClockwiseVertices
    rw [hsort]
    rfl
  have hP : (stillWater Sqrt).GetSubmergedPortion
      ⟨ofRat (unitNormal Sqrt a c b), stillWaterVertex x, stillWaterVertex y,
        stillWaterVertex z⟩ =
      [⟨ofRat x, ofRat y, ofRat z⟩] := GetSubmergedPortion_sunk _ x y z hx hy hz
  unfold applyWorldTriangle
  simp only [hT, hP, List.foldl_cons, List.foldl_nil]

theorem GetCenter_GetArea_perm (Sqrt : ℚ → ℚ) (a b c x y z : FVector ℚ)
    (h : IsCornerPerm a b c x y z) :
    GetCenter ⟨ofRat x, ofRat y, ofRat z⟩ = ofRat (smul (1 / 3) (vadd (vadd a b) c)) ∧
      GetArea Sqrt ⟨ofRat x, ofRat y, ofRat z⟩ =
        FFloat.fin (length Sqrt (CrossProduct (vsub b a) (vsub c a)) / 2) := by
  unfold IsCornerPerm at h
  simp only [Prod.mk.injEq] at h
  have hC : GetCenter ⟨ofRat x, ofRat y, ofRat z⟩ = ofRat (smul (1 / 3) (vadd (vadd x y) z)) :=
    rfl
  have hA : GetArea Sqrt ⟨ofRat x, ofRat y, ofRat z⟩ =
      FFloat.fin (length Sqrt (CrossProduct (vsub y x) (vsub z x)) / 2) := rfl
  rw [hC, hA]
  have hV : ∀ u v : FVector ℚ, u.X = v.X → u.Y = v.Y → u.Z = v.Z → ofRat u = ofRat v := by
    intro u v h1 h2 h3
    simp only [ofRat, h1, h2, h3]
  have hN : ∀ p q r : FVector ℚ,
      DotProduct (CrossProduct (vsub q p) (vsub r p)) (CrossProduct (vsub q p) (vsub r p)) =
        DotProduct (CrossProduct (vsub b a) (vsub c a))
          (CrossProduct (vsub b a) (vsub c a)) →
      FFloat.fin (length Sqrt (CrossProduct (vsub q p) (vsub r p)) / 2) =
        FFloat.fin (length Sqrt (CrossProduct (vsub b a) (vsub c a)) / 2) := by
    intro p q r hpqr
    simp only [length, hpqr]
  rcases h with h | h | h | h | h | h <;>
  · obtain ⟨hx, hy, hz⟩ := h
    rw [hx, hy, hz]
    constructor
    · apply hV <;> first | rfl | (simp only [smul, vadd]; ring)
    · apply hN
      first | rfl | (simp only [DotProduct, CrossProduct, vsub]; ring)

theorem add_ofRat (u v : FVector ℚ) : (ofRat u).add (ofRat v) = ofRat (vadd u v) := rfl

theorem zero_add_ofRat (v : FVector ℚ) : ZeroVector.add (ofRat v) = ofRat v := by
  simp [FVector.add, ZeroVector, ofRat, FFloat.add]

theorem forceSum_append_one (Sink : List FAddForceAtLocation) (Call : FAddForceAtLocation) :
    forceSum (Sink ++ [Call]) = (forceSum Sink).add Call.Force := by
  simp [forceSum, List.foldl_append]

theorem vectorToApply_ofRat (This : UBuoyantMeshComponent) (f : FVector ℚ) (Point : FVec) :
    vectorToApply This ⟨ofRat f, Point⟩ = ofRat (verticalPart This.bVerticalForcesOnly f) := by
  unfold vectorToApply verticalPart
  cases This.bVerticalForcesOnly <;> rfl

theorem containsNaN_ofRat (f : FVector ℚ) : (ofRat f).ContainsNaN = false := rfl

theorem forceSum_ApplyMeshForce_ofRat (This : UBuoyantMeshComponent)
    (Sink : List FAddForceAtLocation) (q f : FVector ℚ) (Point : FVec)
    (hs : forceSum Sink = ofRat q)
    (hKept : verticalPart This.bVerticalForcesOnly f = ⟨0, 0, 0⟩ ∨
      (ofRat (verticalPart This.bVerticalForcesOnly f)).IsNearlyZero = false) :
    forceSum (ApplyMeshForce This ⟨ofRat f, Point⟩ Sink) =
      ofRat (vadd q (verticalPart This.bVerticalForcesOnly f)) := by
  rw [ApplyMeshForce_eq, vectorToApply_ofRat, containsNaN_ofRat, Bool.or_false]
  rcases hKept with h0 | hk
  · rw [h0]
    have hz : (ofRat (⟨0, 0, 0⟩ : FVector ℚ)).IsNearlyZero = true := by decide!
    rw [if_pos hz, hs]
    simp [vadd]
  · rw [if_neg (by rw [hk]; simp), forceSum_append_one, hs]
    rfl

theorem hydrostaticForce_of_cross_zero (rho grav : ℚ) (a b c : FVector ℚ)
    (hN : CrossProduct (vsub c a) (vsub b a) = ⟨0, 0, 0⟩) :
    hydrostaticForce rho grav (a, b, c) = ⟨0, 0, 0⟩ := by
  simp only [hydrostaticForce, hN, smul, mul_zero]

theorem smul_unitNormal_of_cross_zero (Sqrt : ℚ → ℚ) (k : ℚ) (a b c : FVector ℚ)
    (hN : CrossProduct (vsub c a) (vsub b a) = ⟨0, 0, 0⟩) :
    smul k (unitNormal Sqrt a c b) = ⟨0, 0, 0⟩ := by
  unfold unitNormal
  simp only [hN]
  split_ifs <;> simp [smul]

theorem GetSubmergedTriangleForce_sunk (Sqrt : ℚ → ℚ) (This : UBuoyantMeshComponent)
    (rho grav : ℚ)
    (hStatic : This.bUseStaticForces = true) (hDynamic : This.bUseDynamicForces = false)
    (hRho : This.WaterDensity = FFloat.fin rho) (hGrav : This.GravityMagnitude = FFloat.fin grav)
    (a b c x y z : FVector ℚ) (hperm : IsCornerPerm a c b x y z)
    (hArea : CrossProduct (vsub c a) (vsub b a) = ⟨0, 0, 0⟩ ∨
      SMALL_NUMBER < length Sqrt (CrossProduct (vsub c a) (vsub b a)) / 2) :
    ∃ Point : FVec,
      GetSubmergedTriangleForce (stillWater Sqrt) This ⟨ofRat x, ofRat y, ofRat z⟩
        (ofRat (unitNormal Sqrt a c b)) =
          ⟨ofRat (hydrostaticForce rho grav (a, b, c)), Point⟩ := by
  obtain ⟨hC, hA⟩ := GetCenter_GetArea_perm Sqrt a c b x y z hperm
  have hF : GetSubmergedTriangleForce (stillWater Sqrt) This ⟨ofRat x, ofRat y, ofRat z⟩
      (ofRat (unitNormal Sqrt a c b)) =
      if FMath.IsNearlyZero
          (FFloat.fin (length Sqrt (CrossProduct (vsub c a) (vsub b a)) / 2)) = true
      then ⟨ZeroVector, ZeroVector⟩
      else ⟨ZeroVector.add (GetHydrostaticForce (FFloat.fin rho) (FFloat.fin grav)
          ⟨ofRat (smul (1 / 3) (vadd (vadd a c) b)),
            FFloat.fin (smul (1 / 3) (vadd (vadd a c) b)).Z⟩
          (ofRat (unitNormal Sqrt a c b))
          (FFloat.fin (length Sqrt (CrossProduct (vsub c a) (vsub b a)) / 2))),
        ofRat (smul (1 / 3) (vadd (vadd a c) b))⟩ := by
    unfold GetSubmergedTriangleForce
    have e1 : (stillWater Sqrt).GetCenter = GetCenter := rfl
    have e2 : (stillWater Sqrt).GetArea = GetArea Sqrt := rfl
    have e3 : (stillWater Sqrt).GetHydrostaticForce = GetHydrostaticForce := rfl
    simp only [e1, e2, e3, hC, hA, hStatic, hDynamic, hRho, hGrav, GetHeightAboveWater_ofRat,
      if_true, Bool.false_eq_true, if_false]
  have hH : GetHydrostaticForce (FFloat.fin rho) (FFloat.fin grav)
      ⟨ofRat (smul (1 / 3) (vadd (vadd a c) b)),
        FFloat.fin (smul (1 / 3) (vadd (vadd a c) b)).Z⟩
      (ofRat (unitNormal Sqrt a c b))
      (FFloat.fin (length Sqrt (CrossProduct (vsub c a) (vsub b a)) / 2)) =
      ofRat (smul (rho * grav * (smul (1 / 3) (vadd (vadd a c) b)).Z *
        (length Sqrt (CrossProduct (vsub c a) (vsub b a)) / 2)) (unitNormal Sqrt a c b)) := rfl
  rw [hF, hH, zero_add_ofRat]
  rcases hArea with h0 | hpos
  · rw [hydrostaticForce_of_cross_zero rho grav a b c h0,
      smul_unitNormal_of_cross_zero Sqrt _ a b c h0]
    split_ifs
    · exact ⟨ZeroVector, rfl⟩
    · exact ⟨_, rfl⟩
  · have hlen : length Sqrt (CrossProduct (vsub c a) (vsub b a)) ≠ 0 := by
      intro h
      rw [h] at hpos
      norm_num [SMALL_NUMBER] at hpos
    have hnz : FMath.IsNearlyZero
        (FFloat.fin (length Sqrt (CrossProduct (vsub c a) (vsub b a)) / 2)) = false := by
      have hp : 0 < length Sqrt (CrossProduct (vsub c a) (vsub b a)) / 2 := by
        have : (0 : ℚ) < SMALL_NUMBER := by norm_num [SMALL_NUMBER]
        linarith
      simp only [FMath.IsNearlyZero, FFloat.abs, FFloat.le, abs_of_pos hp, decide_eq_false_iff_not,
        not_le]
      exact hpos
    rw [if_neg (by rw [hnz]; simp)]
    refine ⟨ofRat (smul (1 / 3) (vadd (vadd a c) b)), ?_⟩
    have hvec : smul (rho * grav * (smul (1 / 3) (vadd (vadd a c) b)).Z *
          (length Sqrt (CrossProduct (vsub c a) (vsub b a)) / 2)) (unitNormal Sqrt a c b) =
        hydrostaticForce rho grav (a, b, c) := by
      unfold unitNormal
      simp only [if_neg hlen]
      generalize length Sqrt (CrossProduct (vsub c a) (vsub b a)) = len at hlen
      simp only [hydrostaticForce, smul, vadd, CrossProduct, vsub, FVector.mk.injEq]
      refine ⟨?_, ?_, ?_⟩ <;> field_simp <;> ring
    rw [hvec]

theorem forceSum_applyWorldTriangle (Sqrt : ℚ → ℚ) (This : UBuoyantMeshComponent)
    (rho grav : ℚ)
    (hStatic : This.bUseStaticForces = true) (hDynamic : This.bUseDynamicForces = false)
    (hRho : This.WaterDensity = FFloat.fin rho) (hGrav : This.GravityMagnitude = FFloat.fin grav)
    (Sink : List FAddForceAtLocation) (q : FVector ℚ) (hs : forceSum Sink = ofRat q)
    (t : WorldTriangle) (hSunk : t.1.Z ≤ 0 ∧ t.2.1.Z ≤ 0 ∧ t.2.2.Z ≤ 0)
    (hKeep : NoForceFiltered Sqrt This.bVerticalForcesOnly rho grav t) :
    forceSum (applyWorldTriangle Sqrt This Sink t) =
      ofRat (vadd q (verticalPart This.bVerticalForcesOnly (hydrostaticForce rho grav t))) := by
  obtain ⟨a, b, c⟩ := t
  obtain ⟨x, y, z, hperm, heq⟩ :=
    applyWorldTriangle_eq Sqrt This Sink a b c hSunk.1 hSunk.2.1 hSunk.2.2
  obtain ⟨Point, hF⟩ := GetSubmergedTriangleForce_sunk Sqrt This rho grav hStatic hDynamic hRho
    hGrav a b c x y z hperm hKeep.1
  rw [heq, hF]
  exact forceSum_ApplyMeshForce_ofRat This Sink q _ Point hs hKeep.2

theorem forceSum_foldl_applyWorldTriangle (Sqrt : ℚ → ℚ) (This : UBuoyantMeshComponent)
    (rho grav : ℚ)
    (hStatic : This.bUseStaticForces = true) (hDynamic : This.bUseDynamicForces = false)
    (hRho : This.WaterDensity = FFloat.fin rho)
    (hGrav : This.GravityMagnitude = FFloat.fin grav) :
    ∀ (Triangles : List WorldTriangle) (Sink : List FAddForceAtLocation) (q : FVector ℚ),
      forceSum Sink = ofRat q →
      (∀ t ∈ Triangles, (t.1.Z ≤ 0 ∧ t.2.1.Z ≤ 0 ∧ t.2.2.Z ≤ 0) ∧
        NoForceFiltered Sqrt This.bVerticalForcesOnly rho grav t) →
      forceSum (Triangles.foldl (applyWorldTriangle Sqrt This) Sink) =
        ofRat (Triangles.foldl (fun q t =>
          vadd q (verticalPart This.bVerticalForcesOnly (hydrostaticForce rho grav t))) q)
  | [], Sink, q, hs, _ => hs
  | t :: Rest, Sink, q, hs, h => by
    rw [List.foldl_cons, List.foldl_cons]
    exact forceSum_foldl_applyWorldTriangle Sqrt This rho grav hStatic hDynamic hRho hGrav Rest
      _ _
      (forceSum_applyWorldTriangle Sqrt This rho grav hStatic hDynamic hRho hGrav Sink q hs t
        (h t (List.mem_cons_self _ _)).1 (h t (List.mem_cons_self _ _)).2)
      (fun u hu => h u (List.mem_cons_of_mem _ hu))

theorem foldl_vadd_eq (f : WorldTriangle → FVector ℚ) :
    ∀ (Triangles : List WorldTriangle) (q : FVector ℚ),
      Triangles.foldl (fun q t => vadd q (f t)) q =
        ⟨q.X + (Triangles.map fun t => (f t).X).sum, q.Y + (Triangles.map fun t => (f t).Y).sum,
          q.Z + (Triangles.map fun t => (f t).Z).sum⟩
  | [], q => by simp
  | t :: Rest, q => by
    rw [List.foldl_cons, foldl_vadd_eq f Rest]
    simp only [vadd, List.map_cons, List.sum_cons, FVector.mk.injEq]
    refine ⟨?_, ?_, ?_⟩ <;> ring

theorem sum_map_neg (G : FVector ℚ × FVector ℚ → ℚ) :
    ∀ l : List (FVector ℚ × FVector ℚ), (l.map fun e => -G e).sum = -(l.map G).sum
  | [] => by simp
  | e :: rest => by
    simp only [List.map_cons, List.sum_cons, sum_map_neg G rest]
    ring

theorem edge_sum_zero (G : FVector ℚ × FVector ℚ → ℚ) (hAnti : ∀ e, G e.swap = -G e)
    (Triangles : List WorldTriangle) (hClosed : IsClosedSurface Triangles) :
    ((directedEdges Triangles).map G).sum = 0 := by
  have h1 : ((directedEdges Triangles).map G).sum =
      (((directedEdges Triangles).map Prod.swap).map G).sum :=
    (hClosed.map G).sum_eq
  rw [List.map_map] at h1
  have h2 : (G ∘ Prod.swap) = fun e => -G e := funext hAnti
  rw [h2, sum_map_neg] at h1
  linarith

theorem sum_hydrostaticForce (rho grav : ℚ) :
    ∀ Triangles : List WorldTriangle,
      (Triangles.map fun t => (hydrostaticForce rho grav t).X).sum =
          -(rho * grav / 6 * ((directedEdges Triangles).map edgeX).sum) ∧
        (Triangles.map fun t => (hydrostaticForce rho grav t).Y).sum =
          -(rho * grav / 6 * ((directedEdges Triangles).map edgeY).sum) ∧
        (Triangles.map fun t => (hydrostaticForce rho grav t).Z).sum =
          -(rho * grav / 6 * ((directedEdges Triangles).map edgeZ).sum) -
            rho * grav * signedVolume Triangles
  | [] => by simp [directedEdges, signedVolume]
  | (a, b, c) :: Rest => by
    obtain ⟨hX, hY, hZ⟩ := sum_hydrostaticForce rho grav Rest
    simp only [List.map_cons, List.sum_cons, directedEdges, signedVolume] at hX hY hZ ⊢
    rw [hX, hY, hZ]
    simp only [hydrostaticForce, smul, CrossProduct, vsub, edgeX, edgeY, edgeZ,
      TMathUtilities.SignedVolumeOfTriangle]
    refine ⟨?_, ?_, ?_⟩ <;> ring

theorem vertexOr0_sunk (World : List (FVector ℚ)) (hSubmerged : ∀ w ∈ World, w.Z ≤ 0)
    (k : Int) : (vertexOr0 World k).Z ≤ 0 := by
  unfold vertexOr0
  by_cases h : k.toNat < World.length
  · have : World.getD k.toNat ⟨0, 0, 0⟩ = World[k.toNat] := by
      simp [List.getD, List.getElem?_eq_getElem h]
    rw [this]
    exact hSubmerged _ (List.getElem_mem h)
  · have : World.getD k.toNat ⟨0, 0, 0⟩ = ⟨0, 0, 0⟩ := by
      simp [List.getD, List.getElem?_eq_none (Nat.le_of_not_lt h)]
    rw [this]

theorem worldTriangles_sunk (World : List (FVector ℚ)) (hSubmerged : ∀ w ∈ World, w.Z ≤ 0) :
    ∀ (l : List Int), ∀ t ∈ worldTriangles World l, t.1.Z ≤ 0 ∧ t.2.1.Z ≤ 0 ∧ t.2.2.Z ≤ 0
  | [], t, h => by simp [worldTriangles] at h
  | [_], t, h => by simp [worldTriangles] at h
  | [_, _], t, h => by simp [worldTriangles] at h
  | a :: b :: c :: rest, t, h => by
    simp only [worldTriangles, List.mem_cons] at h
    rcases h with h | h
    · rw [h]
      exact ⟨vertexOr0_sunk World hSubmerged a, vertexOr0_sunk World hSubmerged b,
        vertexOr0_sunk World hSubmerged c⟩
    · exact worldTriangles_sunk World hSubmerged rest t h

theorem tripleSum_eq_neg_signedVolume (World : List (FVector ℚ)) :
    ∀ l : List Int, tripleSum (fun v => v) World l = -signedVolume (worldTriangles World l)
  | [] => by simp [tripleSum, worldTriangles, signedVolume]
  | [_] => by simp [tripleSum, worldTriangles, signedVolume]
  | [_, _] => by simp [tripleSum, worldTriangles, signedVolume]
  | a :: b :: c :: rest => by
    have ih := tripleSum_eq_neg_signedVolume World rest
    simp only [signedVolume] at ih
    simp only [tripleSum, worldTriangles, signedVolume, List.map_cons, List.sum_cons, ih]
    rw [SignedVolumeOfTriangle_swap23 (vertexOr0 World a) (vertexOr0 World b)
      (vertexOr0 World c)]
    ring

end ArchimedesLemmas

section ArchimedesClaims

open UBuoyantMeshComponent SpecModel TMathUtilities TMeshUtilities

/-- C3, the claim as stated fails. The unit cube centred at depth 2 in still water is fully
submerged, closed and wound so that the derived normals point outward (the bottom face has
normal `(0, 0, -1)`, the top face `(0, 0, 1)`); its volume is 1. With water density `1e-9` and
gravity 980 the forces are within the tolerance of `ApplyMeshForce` and are discarded
(`NoForceFiltered` fails): no force reaches the sink, and the sum of the applied forces is not
`(0, 0, rho g V)`. -/
theorem ApplyMeshForces_unit_cube_not_archimedes :
    (∀ w ∈ sunkCubeWorld 2, w.Z ≤ 0) ∧
      IsClosedSurface (worldTriangles (sunkCubeWorld 2) sunkCubeIndices) ∧
      IsWoundOutward (sunkCubeWorld 2) sunkCubeIndices ∧
      ((stillWater Rat.sqrt).FromClockwiseVertices (stillWaterVertex ⟨0, 0, -5 / 2⟩)
          (stillWaterVertex ⟨0, 1, -5 / 2⟩) (stillWaterVertex ⟨1, 1, -5 / 2⟩)).Normal =
        ofRat ⟨0, 0, -1⟩ ∧
      ((stillWater Rat.sqrt).FromClockwiseVertices (stillWaterVertex ⟨0, 0, -3 / 2⟩)
          (stillWaterVertex ⟨1, 1, -3 / 2⟩) (stillWaterVertex ⟨0, 1, -3 / 2⟩)).Normal =
        ofRat ⟨0, 0, 1⟩ ∧
      (¬ ∀ t ∈ worldTriangles (sunkCubeWorld 2) sunkCubeIndices,
        NoForceFiltered Rat.sqrt false (1 / 1000000000) 980 t) ∧
      MeshVolume true (some (sunkCubeStatic 2)) = some 1 ∧
      ApplyMeshForces (stillWater Rat.sqrt) (sunkCubeComponent 2 (1 / 1000000000) 980) [] =
        some [] ∧
      (ApplyMeshForces (stillWater Rat.sqrt) (sunkCubeComponent 2 (1 / 1000000000) 980)
          []).map forceSum ≠
        some ⟨FFloat.fin 0, FFloat.fin 0, FFloat.fin (1 / 1000000000 * 980 * 1)⟩ := by
  refine ⟨by decide!, by unfold IsClosedSurface; decide!, by decide!, by decide!, by decide!,
    by decide!, by decide!, by decide!, by decide!⟩

/-- C3 as amended. In still water whose surface is the plane `Z = 0`, with the triangle and
sub-triangle functions as the spec describes them (for every square-root function) and only
hydrostatic forces enabled: for a mesh whose world-space vertices are finite and at or below
the surface, whose indices reference vertices, whose triangles form a closed, consistently
wound surface with the derived normals pointing outward, and of which no force is filtered
out (`NoForceFiltered` for every triangle), `MeshVolume` returns a volume `V`, one step of
`ApplyMeshForces` completes, and the forces it passes to the sink sum to `(0, 0, rho g V)`. -/
theorem hydrostatic_forces_sum_to_archimedes (Sqrt : ℚ → ℚ) (This : UBuoyantMeshComponent)
    (TriangleMesh : FTriangleMesh FFloat) (World : List (FVector ℚ)) (rho grav : ℚ)
    (WITH_EDITOR : Bool) (Component : UStaticMeshComponent ℚ)
    (hMeshes : This.TriangleMeshes = [TriangleMesh])
    (hWorld : TriangleMesh.Vertices.map This.TransformPosition = World.map ofRat)
    (hExtract : GetTriangleMeshes WITH_EDITOR (some Component) =
      some [⟨World, TriangleMesh.TriangleVertexIndices⟩])
    (hId : Component.TransformPosition = fun v => v)
    (hRange : ∀ k ∈ TriangleMesh.TriangleVertexIndices, 0 ≤ k ∧ k < (World.length : Int))
    (hSubmerged : ∀ w ∈ World, w.Z ≤ 0)
    (hClosed : IsClosedSurface (worldTriangles World TriangleMesh.TriangleVertexIndices))
    (hOutward : IsWoundOutward World TriangleMesh.TriangleVertexIndices)
    (hStatic : This.bUseStaticForces = true) (hDynamic : This.bUseDynamicForces = false)
    (hRho : This.WaterDensity = FFloat.fin rho) (hGrav : This.GravityMagnitude = FFloat.fin grav)
    (hKeep : ∀ t ∈ worldTriangles World TriangleMesh.TriangleVertexIndices,
      NoForceFiltered Sqrt This.bVerticalForcesOnly rho grav t) :
    ∃ (V : ℚ) (Calls : List FAddForceAtLocation),
      MeshVolume WITH_EDITOR (some Component) = some V ∧
      ApplyMeshForces (stillWater Sqrt) This [] = some Calls ∧
      forceSum Calls = ⟨FFloat.fin 0, FFloat.fin 0, FFloat.fin (rho * grav * V)⟩ := by
  refine ⟨tripleSum (fun v => v) World TriangleMesh.TriangleVertexIndices,
    (worldTriangles World TriangleMesh.TriangleVertexIndices).foldl
      (applyWorldTriangle Sqrt This) [], ?_, ?_, ?_⟩
  · rw [MeshVolume_of_extract WITH_EDITOR Component _ hExtract,
      addMeshVolume_eq_tripleSum Component _
        (by intro k hk; exact hRange k hk) 0, hId]
    simp only [Option.map_some', zero_add, abs_of_nonneg hOutward]
  · unfold ApplyMeshForces
    rw [hMeshes, List.foldlM_cons,
      applyMeshForcesOfMesh_stillWater Sqrt This TriangleMesh World hWorld hRange []]
    rfl
  · have hsum := forceSum_foldl_applyWorldTriangle Sqrt This rho grav hStatic hDynamic hRho hGrav
      (worldTriangles World TriangleMesh.TriangleVertexIndices) [] ⟨0, 0, 0⟩ rfl
      (fun t ht => ⟨worldTriangles_sunk World hSubmerged _ t ht, hKeep t ht⟩)
    rw [hsum, foldl_vadd_eq]
    obtain ⟨hX, hY, hZ⟩ := sum_hydrostaticForce rho grav
      (worldTriangles World TriangleMesh.TriangleVertexIndices)
    have hEX := edge_sum_zero edgeX (fun e => by simp only [edgeX, Prod.swap]; ring) _ hClosed
    have hEY := edge_sum_zero edgeY (fun e => by simp only [edgeY, Prod.swap]; ring) _ hClosed
    have hEZ := edge_sum_zero edgeZ (fun e => by simp only [edgeZ, Prod.swap]; ring) _ hClosed
    rw [hEX, mul_zero, neg_zero] at hX
    rw [hEY, mul_zero, neg_zero] at hY
    rw [hEZ, mul_zero, neg_zero, zero_sub, ← mul_neg, ← tripleSum_eq_neg_signedVolume] at hZ
    cases hv : This.bVerticalForcesOnly with
    | false =>
      simp only [verticalPart, Bool.false_eq_true, if_false, hX, hY, hZ, zero_add, ofRat]
    | true =>
      simp only [verticalPart, if_true, hZ, zero_add, ofRat, List.map_const', List.sum_replicate,
        smul_zero]

/-- C3 as amended, at the unit cube centred at depth 2 with density 1000 and gravity 980,
wound so that the derived normals point outward: the volume is 1 and the twelve forces sum to
`(0, 0, 980000)`; and at a sunk tetrahedron of volume `1 / 6`, one of whose normals has no
rational length: the four forces sum to `(0, 0, 490000 / 3)`. -/
theorem hydrostatic_forces_sum_to_archimedes_witness :
    (∃ (V : ℚ) (Calls : List FAddForceAtLocation),
      MeshVolume true (some (sunkCubeStatic 2)) = some V ∧
      ApplyMeshForces (stillWater Rat.sqrt) (sunkCubeComponent 2 1000 980) [] = some Calls ∧
      forceSum Calls = ⟨FFloat.fin 0, FFloat.fin 0, FFloat.fin (1000 * 980 * V)⟩) ∧
    MeshVolume true (some (sunkCubeStatic 2)) = some 1 ∧
    (ApplyMeshForces (stillWater Rat.sqrt) (sunkCubeComponent 2 1000 980) []).map forceSum =
      some ⟨FFloat.fin 0, FFloat.fin 0, FFloat.fin 980000⟩ ∧
    (∃ (V : ℚ) (Calls : List FAddForceAtLocation),
      MeshVolume true (some sunkTetrahedronStatic) = some V ∧
      ApplyMeshForces (stillWater Rat.sqrt) sunkTetrahedronComponent [] = some Calls ∧
      forceSum Calls = ⟨FFloat.fin 0, FFloat.fin 0, FFloat.fin (1000 * 980 * V)⟩) ∧
    MeshVolume true (some sunkTetrahedronStatic) = some (1 / 6) ∧
    (ApplyMeshForces (stillWater Rat.sqrt) sunkTetrahedronComponent []).map forceSum =
      some ⟨FFloat.fin 0, FFloat.fin 0, FFloat.fin (490000 / 3)⟩ :=
  ⟨hydrostatic_forces_sum_to_archimedes Rat.sqrt (sunkCubeComponent 2 1000 980) (sunkCubeMesh 2)
    (sunkCubeWorld 2) 1000 980 true (sunkCubeStatic 2) rfl
    (by simp [sunkCubeMesh, sunkCubeComponent, sunkComponent]) rfl rfl
    (by decide!) (by decide!) (by unfold IsClosedSurface; decide!) (by decide!) rfl rfl rfl rfl
    (by decide!), by decide!, by decide!,
    hydrostatic_forces_sum_to_archimedes Rat.sqrt sunkTetrahedronComponent
      ⟨sunkTetrahedronWorld.map ofRat, sunkTetrahedronIndices⟩ sunkTetrahedronWorld 1000 980 true
      sunkTetrahedronStatic rfl (by simp [sunkTetrahedronComponent, sunkComponent]) rfl rfl
      (by decide!) (by decide!) (by unfold IsClosedSurface; decide!) (by decide!) rfl rfl rfl rfl
      (by decide!), by decide!, by decide!⟩

end ArchimedesClaims

end Buoyancy
